import Mathlib

/-!
# Task ledger: the request handlers of `src/src/index.js`

A shallow embedding of `handle_advance` and `handle_inspect` together with the three
module-level stores `tasks`, `userBalances` and `taskIdCounter`.

Modelling decisions, all visible in the definitions below:

* The stores are threaded explicitly through the handlers (`State`).
* `JSON.parse(payload)` followed by the destructuring on line 28 is represented by its
  result (`Payload`): either the six destructured fields, or the message of the exception
  that line 28 raises. Field values (`JVal`) are the JSON primitives and, as `other`, every
  further value `JSON.parse` can deliver (arrays, objects, numbers that are no safe integer,
  strings with an unpaired surrogate), seen through what the handlers do with a value: test
  its truthiness, compare it, convert it to a string or property key, encode it, store it.
* A conversion to a string or property key can throw (an object with an own `toString`
  entry), and `str2hex` can throw (text with an unpaired high surrogate). Inside the `try`
  this becomes a `reject`, also after a store has been written; in the `catch` block, line
  110, it makes `handle_advance` itself throw (`Outcome.thrown`).
* `Date.now()` is an input of `handle_advance` (`now`).
* Both stores are plain objects (`{}`), so a property read also sees the members of
  `Object.prototype`; reads therefore distinguish own, inherited and missing properties.
* The two `fetch` calls only deliver the message; the message is part of the result.
  `JSON.stringify` of task records is kept structured (`Body.tasksJson`, `Body.taskJson`).
* JavaScript numbers are modelled by unbounded integers plus `NaN`. `JVal.num n` and the
  counters stand for safe integers (magnitude below `2^53`), which JavaScript prints in full;
  the rounding of doubles beyond that and their exponent notation are not modelled.
-/

namespace TaskLedger

/-! ## Values and property keys -/

/-- The value of a destructured payload field; `undefined` is an absent field, `num n` a safe
integer, `str s` a well-formed string. `other` is any other value `JSON.parse` delivers: an
array, an object, a number that is no safe integer, or a string holding an unpaired
surrogate. Such a value is truthy and strictly equal to no well-formed string; `json` is its
JSON text, `text` its conversion to a string (`none` when the conversion throws a
`TypeError`, as for an object with an own `toString` entry; for a string holding an unpaired
surrogate, a rendering of it that tells it from every other string), and `encodable` tells
whether `str2hex` accepts that text. -/
inductive JVal
  | undefined
  | null
  | bool (b : Bool)
  | num (n : Int)
  | str (s : String)
  | other (json : String) (text : Option String) (encodable : Bool)
  deriving DecidableEq, Repr

/-- JavaScript truthiness, the negation of what `!v` tests. -/
def JVal.truthy : JVal → Bool
  | .undefined => false
  | .null => false
  | .bool b => b
  | .num n => decide (n ≠ 0)
  | .str s => decide (s ≠ "")
  | .other _ _ _ => true

/-- Whether the conversion of a value to a string or to a property key returns; when it does
not, it throws a `TypeError`. -/
def JVal.converts : JVal → Bool
  | .other _ none _ => false
  | _ => true

/-- Whether `str2hex` accepts the string a value converts to. -/
def JVal.encodable : JVal → Bool
  | .other _ _ e => e
  | _ => true

/-- String conversion, as performed by a template literal, of a value that `converts`. -/
def JVal.toText : JVal → String
  | .undefined => "undefined"
  | .null => "null"
  | .bool true => "true"
  | .bool false => "false"
  | .num n => toString n
  | .str s => s
  | .other _ (some t) _ => t
  | .other _ none _ => ""

/-- A property key in normal form: the key `"7"` is `idx 7`, every string that is not the
decimal numeral of a natural number is a `name`. -/
inductive Key
  | idx (n : Nat)
  | name (s : String)
  deriving DecidableEq, Repr

/-- Reads a run of decimal digits; `none` when a character is not a digit. -/
def parseDigits : List Char → Nat → Option Nat
  | [], acc => some acc
  | c :: cs, acc =>
    if c.isDigit then parseDigits cs (10 * acc + (c.toNat - 48)) else none

/-- The property key denoted by a string. -/
def keyOfString (s : String) : Key :=
  match s.data with
  | [] => .name s
  | c :: cs =>
    match parseDigits (c :: cs) 0 with
    | some n => if Nat.repr n = s then .idx n else .name s
    | none => .name s

/-- The property key a value that `converts` is converted to when it is used in `obj[v]`. -/
def JVal.toKey : JVal → Key
  | .undefined => .name "undefined"
  | .null => .name "null"
  | .bool true => .name "true"
  | .bool false => .name "false"
  | .num n => if 0 ≤ n then .idx n.toNat else .name (toString n)
  | .str s => keyOfString s
  | .other _ (some t) _ => keyOfString t
  | .other _ none _ => .name ""

/-- The function-valued members every plain object inherits from `Object.prototype`. -/
def protoFunctions : List String :=
  ["constructor", "__defineGetter__", "__defineSetter__", "hasOwnProperty",
   "__lookupGetter__", "__lookupSetter__", "isPrototypeOf", "propertyIsEnumerable",
   "toString", "valueOf", "toLocaleString"]

/-- Whether a key names a member of `Object.prototype`. -/
def isProtoKey : Key → Bool
  | .idx _ => false
  | .name m => decide (m ∈ protoFunctions) || decide (m = "__proto__")

/-- The string an inherited member converts to when `+` is applied to it. -/
def protoText (m : String) : String :=
  if m = "__proto__" then "[object Object]"
  else if m = "constructor" then "function Object() \x7b [native code] \x7d"
  else "function " ++ m ++ "() \x7b [native code] \x7d"

/-! ## The stores -/

/-- A task record, as built on lines 40-48. -/
structure Task where
  id : Nat
  title : JVal
  description : JVal
  creator : String
  assignee : JVal
  status : JVal
  createdAt : Nat
  deriving DecidableEq, Repr

/-- A value stored in `userBalances`. -/
inductive LVal
  | num (n : Int)
  | nan
  | text (s : String)
  deriving DecidableEq, Repr

/-- The own properties of `userBalances`. -/
abbrev Ledger := Key → Option LVal

/-- The three module-level variables of lines 14-16. `tasks` lists the own properties of
the `tasks` object in the order `Object.values` enumerates them (ascending integer key). -/
structure State where
  tasks : List Task
  userBalances : Ledger
  taskIdCounter : Nat

/-- The state right after the module is loaded. -/
def State.init : State :=
  { tasks := [], userBalances := fun _ => none, taskIdCounter := 0 }

/-- The result of reading `tasks[k]`. -/
inductive TaskSlot
  | undefined
  | own (t : Task)
  | inherited (member : String)
  deriving DecidableEq, Repr

/-- The read `tasks[k]`. -/
def getTask (ts : List Task) (k : Key) : TaskSlot :=
  match k with
  | .idx n =>
    match ts.find? (fun t => decide (t.id = n)) with
    | some t => .own t
    | none => .undefined
  | .name m => if isProtoKey (.name m) then .inherited m else .undefined

/-- The write `tasks[n] = t` for an integer key: replaces the property when it exists,
otherwise adds it at its place in ascending key order. -/
def setTask (n : Nat) (t : Task) : List Task → List Task
  | [] => [t]
  | u :: us =>
    if n < u.id then t :: u :: us
    else if u.id = n then t :: us
    else u :: setTask n t us

/-- The write `tasks[n].field = ...`: `f` is applied to the record stored under key `n`. -/
def modifyTask (n : Nat) (f : Task → Task) : List Task → List Task
  | [] => []
  | u :: us => if u.id = n then f u :: us else u :: modifyTask n f us

/-- The result of reading `userBalances[k]`. -/
inductive BalSlot
  | undefined
  | own (v : LVal)
  | inherited (member : String)
  deriving DecidableEq, Repr

/-- The read `userBalances[k]`. -/
def ledgerGet (b : Ledger) (k : Key) : BalSlot :=
  match b k with
  | some v => .own v
  | none =>
    match k with
    | .idx _ => .undefined
    | .name m => if isProtoKey (.name m) then .inherited m else .undefined

/-- The write `userBalances[k] = v` of a primitive `v`; the `__proto__` setter ignores it. -/
def ledgerSet (b : Ledger) (k : Key) (v : LVal) : Ledger :=
  if k = .name "__proto__" then b else fun j => if j = k then some v else b j

/-- Truthiness of a value read from `userBalances`. -/
def BalSlot.truthy : BalSlot → Bool
  | .undefined => false
  | .own (.num n) => decide (n ≠ 0)
  | .own .nan => false
  | .own (.text s) => decide (s ≠ "")
  | .inherited _ => true

/-- The reward of line 18. -/
def TASK_REWARD : Int := 10

/-- The value of `x + TASK_REWARD` for `x` read from `userBalances`. -/
def BalSlot.plusReward : BalSlot → LVal
  | .undefined => .nan
  | .own (.num n) => .num (n + TASK_REWARD)
  | .own .nan => .nan
  | .own (.text s) => .text (s ++ toString TASK_REWARD)
  | .inherited m => .text (protoText m ++ toString TASK_REWARD)

/-- Line 30: `if (!userBalances[sender]) userBalances[sender] = 0;`. -/
def initBalance (b : Ledger) (sender : String) : Ledger :=
  if (ledgerGet b (keyOfString sender)).truthy then b
  else ledgerSet b (keyOfString sender) (.num 0)

/-- Line 70: `userBalances[assignee] += TASK_REWARD;`. -/
def creditReward (b : Ledger) (assignee : JVal) : Ledger :=
  ledgerSet b assignee.toKey (ledgerGet b assignee.toKey).plusReward

/-! ## Advance requests -/

/-- The six fields destructured on line 28. -/
structure ActionRequest where
  action : JVal := .undefined
  taskId : JVal := .undefined
  title : JVal := .undefined
  description : JVal := .undefined
  assignee : JVal := .undefined
  status : JVal := .undefined
  deriving DecidableEq, Repr

/-- The outcome of line 28 on a payload text: the destructured fields, or the exception
raised by `JSON.parse` or by destructuring `null`. The exception is `invalid` when `str2hex`
accepts its message and `unreportable` when its message holds an unpaired high surrogate
(the parser quotes the offending code unit of the payload). -/
inductive Payload
  | invalid (message : String)
  | fields (r : ActionRequest)
  | unreportable (message : String)
  deriving DecidableEq, Repr

/-- What `handle_advance` returns (`status`), the message it posts as notice or report, and
the stores it leaves behind. When `thrown` is set the function has raised an exception
instead of returning: there is then no status and no message. -/
structure Outcome where
  status : String
  message : String
  state : State
  thrown : Bool

/-- The statuses accepted on line 62. -/
def validStatuses : List JVal := [.str "Open", .str "In Progress", .str "Completed"]

/-- The message of the `TypeError` that a failing conversion throws. -/
def conversionError : String := "Cannot convert object to primitive value"

/-- The message of the error `str2hex` throws on text it cannot encode; the library appends
the argument, its value and its own version, which are left out. -/
def encodingError : String := "invalid surrogate pair"

/-- Lines 95-103: the notice is encoded and posted, and `accept` returned. When `str2hex`
throws on the message, line 104 catches the error and the request ends in `reject`, with the
stores as the case has left them. -/
def sendNotice (message : String) (encodable : Bool) (s : State) : Outcome :=
  if encodable then ⟨"accept", message, s, false⟩ else ⟨"reject", encodingError, s, false⟩

/-- The `create` case, lines 35-50, after line 30 has run. Its message holds the counter
alone, so that `str2hex` accepts it. -/
def handleCreate (s1 : State) (sender : String) (now : Nat) (r : ActionRequest) : Outcome :=
  if !r.title.truthy || !r.description.truthy || !r.assignee.truthy then
    ⟨"reject", "Title, description, and assignee are required for task creation.", s1, false⟩
  else
    let counter := s1.taskIdCounter + 1
    let task : Task :=
      { id := counter, title := r.title, description := r.description, creator := sender,
        assignee := r.assignee, status := .str "Open", createdAt := now }
    ⟨"accept", "Task created with ID: " ++ toString counter,
      { s1 with taskIdCounter := counter, tasks := setTask counter task s1.tasks }, false⟩

/-- The `update` case, lines 52-75, after line 30 has run. The key conversion of line 56
precedes every write; that of line 70 and the encoding of line 100 follow the write of
line 67. -/
def handleUpdate (s1 : State) (sender : String) (r : ActionRequest) : Outcome :=
  if !r.taskId.truthy || !r.status.truthy then
    ⟨"reject", "TaskId and status are required for update.", s1, false⟩
  else if !r.taskId.converts then
    ⟨"reject", conversionError, s1, false⟩
  else
    match getTask s1.tasks r.taskId.toKey with
    | .undefined => ⟨"reject", "Task does not exist.", s1, false⟩
    | .inherited _ =>
      -- `.assignee` and `.creator` of an inherited member are undefined, never the sender
      ⟨"reject", "Only the task creator or assignee can update the task.", s1, false⟩
    | .own t =>
      if JVal.str sender ≠ t.assignee ∧ sender ≠ t.creator then
        ⟨"reject", "Only the task creator or assignee can update the task.", s1, false⟩
      else if r.status ∉ validStatuses then
        ⟨"reject", "Invalid status. Use 'Open', 'In Progress', or 'Completed'.", s1, false⟩
      else
        let oldStatus := t.status
        let tasks1 := modifyTask t.id (fun u => { u with status := r.status }) s1.tasks
        if r.status = .str "Completed" ∧ oldStatus ≠ .str "Completed" then
          if !t.assignee.converts then
            ⟨"reject", conversionError, { s1 with tasks := tasks1 }, false⟩
          else
            sendNotice
              ("Task " ++ r.taskId.toText ++ " marked as Completed. " ++ t.assignee.toText
                ++ " earned " ++ toString TASK_REWARD ++ " tokens.")
              (r.taskId.encodable && t.assignee.encodable)
              { s1 with tasks := tasks1,
                        userBalances := creditReward s1.userBalances t.assignee }
        else
          sendNotice
            ("Task " ++ r.taskId.toText ++ " updated to status: " ++ r.status.toText)
            r.taskId.encodable
            { s1 with tasks := tasks1 }

/-- The `reassign` case, lines 77-89, after line 30 has run. The key conversion of line 81
precedes the write; the string conversion of line 88 and the encoding of line 100 follow the
write of line 87. -/
def handleReassign (s1 : State) (sender : String) (r : ActionRequest) : Outcome :=
  if !r.taskId.truthy || !r.assignee.truthy then
    ⟨"reject", "TaskId and new assignee are required for reassignment.", s1, false⟩
  else if !r.taskId.converts then
    ⟨"reject", conversionError, s1, false⟩
  else
    match getTask s1.tasks r.taskId.toKey with
    | .undefined => ⟨"reject", "Task does not exist.", s1, false⟩
    | .inherited _ =>
      -- `.creator` of an inherited member is undefined, never the sender
      ⟨"reject", "Only the task creator can reassign the task.", s1, false⟩
    | .own t =>
      if sender ≠ t.creator then
        ⟨"reject", "Only the task creator can reassign the task.", s1, false⟩
      else
        let tasks1 := modifyTask t.id (fun u => { u with assignee := r.assignee }) s1.tasks
        if !r.assignee.converts then
          ⟨"reject", conversionError, { s1 with tasks := tasks1 }, false⟩
        else
          sendNotice
            ("Task " ++ r.taskId.toText ++ " reassigned to " ++ r.assignee.toText)
            (r.taskId.encodable && r.assignee.encodable)
            { s1 with tasks := tasks1 }

/-- Lines 104-114, the `catch` block: the message of the caught error is encoded and posted
as report, and `reject` returned. Line 110 stands outside any `try`: when `str2hex` throws
on the message, `handle_advance` throws, having returned nothing and posted nothing. The
messages of the checks, of a failed conversion and of `str2hex` itself are plain ASCII, so
only the message of a parse error can fail to encode. -/
def reportError (message : String) (encodable : Bool) (s : State) : Outcome :=
  if encodable then ⟨"reject", message, s, false⟩ else ⟨"", "", s, true⟩

/-- The function `handle_advance`, lines 20-115. A thrown `Error` is caught on line 104 and
becomes a `reject` carrying its message; whatever was written before the throw stays. The
report of line 110 is encoded outside any `try`: when the caught message cannot be encoded,
that throw leaves the function. -/
def handle_advance (s : State) (sender : String) (now : Nat) (payload : Payload) : Outcome :=
  match payload with
  | .invalid message => reportError message true s
  | .unreportable message => reportError message false s
  | .fields r =>
    let s1 : State := { s with userBalances := initBalance s.userBalances sender }
    if r.action = .str "create" then handleCreate s1 sender now r
    else if r.action = .str "update" then handleUpdate s1 sender r
    else if r.action = .str "reassign" then handleReassign s1 sender r
    else ⟨"reject", "Invalid action. Use 'create', 'update', or 'reassign'.", s1, false⟩

/-! ## Inspect requests -/

/-- The method `String.prototype.split` with a one-character separator. -/
def splitOn (sep : Char) : List Char → List (List Char)
  | [] => [[]]
  | c :: cs =>
    if c = sep then [] :: splitOn sep cs
    else
      match splitOn sep cs with
      | [] => [[c]]
      | p :: ps => (c :: p) :: ps

/-- The body `handle_inspect` posts as report. -/
inductive Body
  | text (s : String)
  | tasksJson (ts : List Task)
  | taskJson (t : Task)
  deriving DecidableEq, Repr

/-- Line 142: `JSON.stringify({ balance: userBalances[sender] || 0 })`. -/
def balanceReply (b : Ledger) (sender : String) : String :=
  match ledgerGet b (keyOfString sender) with
  | .undefined => "\x7b\"balance\":0\x7d"
  | .own (.num n) => "\x7b\"balance\":" ++ toString n ++ "\x7d"
  | .own .nan => "\x7b\"balance\":0\x7d"
  | .own (.text t) =>
    if t = "" then "\x7b\"balance\":0\x7d" else "\x7b\"balance\":\"" ++ t ++ "\"\x7d"
  | .inherited m => if m = "__proto__" then "\x7b\"balance\":\x7b\x7d\x7d" else "\x7b\x7d"

/-- Line 133, `params[0].split('/')[1]`: the text of the token between its first and its
second slash (up to its end when there is no second slash), and `none`, for undefined, when
the token holds no slash. -/
def idTextOf (p : List Char) : Option (List Char) :=
  (splitOn '/' p).tail.head?

/-- The property key under which line 134 looks up what line 133 has read. -/
def taskIdOf (p : List Char) : Key :=
  match idTextOf p with
  | none => .name "undefined"
  | some cs => keyOfString (String.mk cs)

/-- The `task` case, lines 132-139; `none` when the case throws: on line 133 when there is
no parameter, and in `str2hex` when `JSON.stringify` of an inherited function is undefined. -/
def inspectTask (s : State) (params : List (List Char)) : Option Body :=
  match params with
  | [] => none
  | p :: _ =>
    match getTask s.tasks (taskIdOf p) with
    | .undefined => some (.text "Task does not exist.")
    | .own t => some (.taskJson t)
    | .inherited m => if m = "__proto__" then some (.text "\x7b\x7d") else none

/-- The function `handle_inspect`, lines 117-165: the body it reports, or `none` when it
throws before reporting. It writes to no store. -/
def handle_inspect (s : State) (sender : String) (payload : String) : Option Body :=
  match splitOn ' ' payload.data with
  | [] => some (.text "Invalid route. Use 'list', 'task <taskId>', 'balance', or 'my_tasks'.")
  | route :: params =>
    if route = "list".data then some (.tasksJson s.tasks)
    else if route = "task".data then inspectTask s params
    else if route = "balance".data then some (.text (balanceReply s.userBalances sender))
    else if route = "my_tasks".data then
      some (.tasksJson (s.tasks.filter fun t =>
        decide (t.assignee = .str sender) || decide (t.creator = sender)))
    else some (.text "Invalid route. Use 'list', 'task <taskId>', 'balance', or 'my_tasks'.")

/-- The function `handle_inspect`, lines 117-165, as a program over the stores. The handler
touches `tasks` and `userBalances` only to read them (`get`); where it throws, the program
ends without a body. -/
def inspectProgram (sender payload : String) : StateM State (Option Body) :=
  match splitOn ' ' payload.data with
  | [] =>
    pure (some (.text "Invalid route. Use 'list', 'task <taskId>', 'balance', or 'my_tasks'."))
  | route :: params =>
    if route = "list".data then do
      let stores ← get
      pure (some (.tasksJson stores.tasks))
    else if route = "task".data then
      match params with
      | [] => pure none
      | p :: _ => do
        let stores ← get
        match getTask stores.tasks (taskIdOf p) with
        | .undefined => pure (some (.text "Task does not exist."))
        | .own t => pure (some (.taskJson t))
        | .inherited m => pure (if m = "__proto__" then some (.text "\x7b\x7d") else none)
    else if route = "balance".data then do
      let stores ← get
      pure (some (.text (balanceReply stores.userBalances sender)))
    else if route = "my_tasks".data then do
      let stores ← get
      pure (some (.tasksJson (stores.tasks.filter fun t =>
        decide (t.assignee = .str sender) || decide (t.creator = sender))))
    else
      pure (some (.text "Invalid route. Use 'list', 'task <taskId>', 'balance', or 'my_tasks'."))

/-! ## Runs -/

/-- One advance request as delivered to `handle_advance`, with the clock reading it sees. -/
structure Step where
  sender : String
  now : Nat
  payload : Payload
  deriving DecidableEq, Repr

/-- The outcome of one advance request. -/
def advance (s : State) (st : Step) : Outcome :=
  handle_advance s st.sender st.now st.payload

/-- The state after a sequence of advance requests. -/
def run (s : State) : List Step → State
  | [] => s
  | st :: rest => run (advance s st).state rest

/-- The states the program can be in: those a sequence of advance requests leads to from
the initial state. -/
def Reachable (s : State) : Prop := ∃ steps : List Step, s = run State.init steps

/-- The `action` field a payload carries; undefined when the payload did not parse. -/
def Payload.action : Payload → JVal
  | .invalid _ => .undefined
  | .unreportable _ => .undefined
  | .fields r => r.action

/-- Whether a request is a create request that is accepted in state `s`. -/
def isAcceptedCreate (s : State) (st : Step) : Bool :=
  decide ((advance s st).status = "accept") && decide (st.payload.action = .str "create")

/-- The number of accepted create requests in a sequence processed from state `s`. -/
def acceptedCreates (s : State) : List Step → Nat
  | [] => 0
  | st :: rest =>
    (if isAcceptedCreate s st then 1 else 0) + acceptedCreates (advance s st).state rest

/-- A ledger entry on which line 30 has no effect: it reads truthy, or it is the number 0. -/
def Settled (b : Ledger) (k : Key) : Prop :=
  (ledgerGet b k).truthy = true ∨ b k = some (.num 0)

/-- Properties of the stores that every advance request preserves: the stored ids are
`1, ..., taskIdCounter` in this order, `userBalances` has no own `__proto__` entry, and the
entry of every task creator is settled. -/
structure Inv (s : State) : Prop where
  ids : s.tasks.map (fun t => t.id) = List.range' 1 s.taskIdCounter
  proto : s.userBalances (.name "__proto__") = none
  creators : ∀ t ∈ s.tasks, Settled s.userBalances (keyOfString t.creator)

/-- The status and the message of every request of a sequence processed from state `s`. -/
def emitted (s : State) : List Step → List (String × String)
  | [] => []
  | st :: rest =>
    ((advance s st).status, (advance s st).message) :: emitted (advance s st).state rest

/-- A task record with its `createdAt` field blanked. -/
def Task.untimed (t : Task) : Task := { t with createdAt := 0 }

/-- The stores with every `createdAt` field blanked. -/
def State.untimed (s : State) : State := { s with tasks := s.tasks.map Task.untimed }

/-- A request with its clock reading blanked: the sender and the payload alone. -/
def Step.untimed (st : Step) : Step := { st with now := 0 }

/-- An inspect response with every `createdAt` field it serialises blanked. -/
def Body.untimed : Body → Body
  | .text s => .text s
  | .tasksJson ts => .tasksJson (ts.map Task.untimed)
  | .taskJson t => .taskJson t.untimed

/-- A request of either kind, as the loop of lines 174-193 hands it to its handler. -/
inductive Request
  | advance (st : Step)
  | inspect (sender payload : String)
  deriving DecidableEq, Repr

/-- The stores after one request: those `handle_advance` leaves behind, or those the
program of `handle_inspect` ends with. -/
def serve (s : State) : Request → State
  | .advance st => (advance s st).state
  | .inspect sender payload => ((inspectProgram sender payload).run s).2

/-- The stores after a sequence of requests of both kinds. -/
def serveAll (s : State) : List Request → State
  | [] => s
  | q :: rest => serveAll (serve s q) rest

/-- The advance requests of a sequence of requests, in order. -/
def advanceSteps : List Request → List Step
  | [] => []
  | .advance st :: rest => st :: advanceSteps rest
  | .inspect _ _ :: rest => advanceSteps rest

/-- A text field as the interface declares it: a string, or absent (`null` included). -/
def JVal.isTextOrAbsent (v : JVal) : Prop :=
  v = .undefined ∨ v = .null ∨ ∃ x : String, v = .str x

/-- A text field that is missing (absent or `null`) or empty. -/
def JVal.missingOrEmpty (v : JVal) : Prop :=
  v = .undefined ∨ v = .null ∨ v = .str ""

/-- The messages of the `throw new Error` statements of lines 37-92, by which the code
rejects a request after one of its own checks. -/
def checkMessages : List String :=
  ["Title, description, and assignee are required for task creation.",
   "TaskId and status are required for update.",
   "Task does not exist.",
   "Only the task creator or assignee can update the task.",
   "Invalid status. Use 'Open', 'In Progress', or 'Completed'.",
   "TaskId and new assignee are required for reassignment.",
   "Only the task creator can reassign the task.",
   "Invalid action. Use 'create', 'update', or 'reassign'."]

/-! ## The example scenario of the specification -/

/-- Scenario 1: sender `A` creates task `T1` for assignee `B`, at clock reading `now`. -/
def createT1 (now : Nat) : Step :=
  { sender := "A", now := now,
    payload := .fields { action := .str "create", title := .str "T1",
                         description := .str "D1", assignee := .str "B" } }

/-- Scenario 2: `sender` sends an update of task 1 to `status`. -/
def updateT1 (sender : String) (status : String) : Step :=
  { sender := sender, now := 2000,
    payload := .fields { action := .str "update", taskId := .num 1, status := .str status } }

/-- A request whose action is none of the three supported ones. -/
def unsupported (sender : String) : Step :=
  { sender := sender, now := 1500, payload := .fields { action := .str "noop" } }

/-! ## Evaluations at concrete requests -/

/-- C1 (failing input): `A` creates task 1 for `B`, who has sent no advance request, and then
completes it. The update is accepted and its notice says that `B` earned 10 tokens, yet
line 70 adds the reward to `undefined`: the stored value is `NaN` and the balance query
answers 0 for `B` after the completion just as before it. -/
theorem C1_unseen_assignee_reward_lost :
    (advance (run State.init [createT1 1000]) (updateT1 "A" "Completed")).status = "accept" ∧
    (advance (run State.init [createT1 1000]) (updateT1 "A" "Completed")).message
      = "Task 1 marked as Completed. B earned 10 tokens." ∧
    (run State.init [createT1 1000, updateT1 "A" "Completed"]).userBalances (keyOfString "B")
      = some LVal.nan ∧
    handle_inspect (run State.init [createT1 1000]) "B" "balance"
      = some (.text "\x7b\"balance\":0\x7d") ∧
    handle_inspect (run State.init [createT1 1000, updateT1 "A" "Completed"]) "B" "balance"
      = some (.text "\x7b\"balance\":0\x7d") := by
  decide

/-- C2 (counterexample): `B` completes task 1, moves it back to `Open` and completes it
again; all three updates are accepted and the second completion credits the reward a second
time, taking the balance of `B` from 10 to 20. -/
theorem C2_recompletion_rewarded_again :
    (advance (run State.init [createT1 1000, updateT1 "B" "Completed", updateT1 "B" "Open"])
      (updateT1 "B" "Completed")).status = "accept" ∧
    handle_inspect (run State.init [createT1 1000, updateT1 "B" "Completed"]) "B" "balance"
      = some (.text "\x7b\"balance\":10\x7d") ∧
    handle_inspect (run State.init [createT1 1000, updateT1 "B" "Completed",
        updateT1 "B" "Open"]) "B" "balance"
      = some (.text "\x7b\"balance\":10\x7d") ∧
    handle_inspect (run State.init [createT1 1000, updateT1 "B" "Completed",
        updateT1 "B" "Open", updateT1 "B" "Completed"]) "B" "balance"
      = some (.text "\x7b\"balance\":20\x7d") := by
  decide

/-- C3 (counterexample): a request of `B` with an unsupported action is rejected, yet line 30
has already stored a balance entry for `B`, so the Ledger Store is not what it was before; and
the completion of task 1 that follows credits 10 to `B`, where without the rejected request
it stores `NaN`. -/
theorem C3_rejected_request_writes_ledger :
    (advance (run State.init [createT1 1000]) (unsupported "B")).status = "reject" ∧
    (run State.init [createT1 1000]).userBalances (keyOfString "B") = none ∧
    (advance (run State.init [createT1 1000]) (unsupported "B")).state.userBalances
      (keyOfString "B") = some (LVal.num 0) ∧
    handle_inspect (run State.init [createT1 1000, unsupported "B", updateT1 "A" "Completed"])
      "B" "balance" = some (.text "\x7b\"balance\":10\x7d") ∧
    handle_inspect (run State.init [createT1 1000, updateT1 "A" "Completed"])
      "B" "balance" = some (.text "\x7b\"balance\":0\x7d") := by
  decide

/-- C4 (counterexample): two runs of the same single create request that read different
clocks end with different Task Stores and answer the `list` query differently. -/
theorem C4_clock_reading_is_observable :
    (createT1 1000).sender = (createT1 1001).sender ∧
    (createT1 1000).payload = (createT1 1001).payload ∧
    (run State.init [createT1 1000]).tasks ≠ (run State.init [createT1 1001]).tasks ∧
    handle_inspect (run State.init [createT1 1000]) "A" "list"
      ≠ handle_inspect (run State.init [createT1 1001]) "A" "list" := by
  decide

/-- C9 (counterexample): an update that supplies `taskId: 0` and a status names no stored
task, and is rejected with the validation error of line 54, not with the not-found error. -/
theorem C9_zero_taskId_is_validation_error :
    getTask (run State.init [createT1 1000]).tasks (JVal.num 0).toKey = .undefined ∧
    (advance (run State.init [createT1 1000])
      { sender := "A", now := 2000,
        payload := .fields { action := .str "update", taskId := .num 0,
                             status := .str "Open" } }).status = "reject" ∧
    (advance (run State.init [createT1 1000])
      { sender := "A", now := 2000,
        payload := .fields { action := .str "update", taskId := .num 0,
                             status := .str "Open" } }).message
      = "TaskId and status are required for update." := by
  decide

/-- C10 (failing input): for the payload `task` the parameter list is empty, `params[0]` is
undefined and line 133 throws; no response is reported, whatever the state and the sender. -/
theorem C10_task_route_without_parameter_throws (s : State) (sender : String) :
    handle_inspect s sender "task" = none := by
  rfl

/-! ## Ledger reads and writes -/

theorem ledgerSet_other (b : Ledger) (k j : Key) (v : LVal) (h : j ≠ k) :
    ledgerSet b k v j = b j := by
  unfold ledgerSet
  split
  · rfl
  · simp [h]

theorem ledgerGet_ledgerSet_other (b : Ledger) (k j : Key) (v : LVal) (h : j ≠ k) :
    ledgerGet (ledgerSet b k v) j = ledgerGet b j := by
  unfold ledgerGet
  rw [ledgerSet_other b k j v h]

theorem ledgerGet_ledgerSet_same (b : Ledger) (k : Key) (v : LVal)
    (hk : k ≠ .name "__proto__") : ledgerGet (ledgerSet b k v) k = .own v := by
  unfold ledgerGet ledgerSet
  simp [hk]

theorem initBalance_other (b : Ledger) (sender : String) (j : Key)
    (h : j ≠ keyOfString sender) : initBalance b sender j = b j := by
  unfold initBalance
  split
  · rfl
  · exact ledgerSet_other b _ j _ h

/-- Line 30 stores 0 where the read was falsy, so no balance query can tell the difference. -/
theorem balanceReply_initBalance (b : Ledger) (sender who : String) :
    balanceReply (initBalance b sender) who = balanceReply b who := by
  unfold initBalance
  split
  · rfl
  · rename_i hfalsy
    by_cases hp : keyOfString sender = .name "__proto__"
    · simp [ledgerSet, hp]
    · by_cases hw : keyOfString who = keyOfString sender
      · unfold balanceReply
        rw [hw, ledgerGet_ledgerSet_same _ _ _ hp]
        cases hg : ledgerGet b (keyOfString sender) with
        | undefined => decide
        | own v =>
          cases v with
          | num n =>
            have hn : n = 0 := by simpa [hg, BalSlot.truthy] using hfalsy
            subst hn
            rfl
          | nan => decide
          | text t =>
            have ht : t = "" := by simpa [hg, BalSlot.truthy] using hfalsy
            subst ht
            decide
        | inherited m => simp [hg, BalSlot.truthy] at hfalsy
      · unfold balanceReply
        rw [ledgerGet_ledgerSet_other _ _ _ _ hw]

/-! ## Rejected requests -/

theorem conversionError_unchecked : conversionError ∉ checkMessages := by decide

theorem encodingError_unchecked : encodingError ∉ checkMessages := by decide

theorem handleCreate_reject (s1 : State) (sender : String) (now : Nat) (r : ActionRequest)
    (h : (handleCreate s1 sender now r).status = "reject") :
    (handleCreate s1 sender now r).state = s1 := by
  unfold handleCreate at h ⊢
  split_ifs at h ⊢
  · rfl
  · simp at h

theorem handleUpdate_reject (s1 : State) (sender : String) (r : ActionRequest)
    (h : (handleUpdate s1 sender r).status = "reject")
    (hm : (handleUpdate s1 sender r).message ∈ checkMessages) :
    (handleUpdate s1 sender r).state = s1 := by
  unfold handleUpdate sendNotice at h hm ⊢
  cases hg : getTask s1.tasks r.taskId.toKey <;> simp only [hg] at h hm ⊢ <;>
    split_ifs at h hm ⊢ <;> first
      | rfl
      | exact absurd hm conversionError_unchecked
      | exact absurd hm encodingError_unchecked
      | simp at h

theorem handleReassign_reject (s1 : State) (sender : String) (r : ActionRequest)
    (h : (handleReassign s1 sender r).status = "reject")
    (hm : (handleReassign s1 sender r).message ∈ checkMessages) :
    (handleReassign s1 sender r).state = s1 := by
  unfold handleReassign sendNotice at h hm ⊢
  cases hg : getTask s1.tasks r.taskId.toKey <;> simp only [hg] at h hm ⊢ <;>
    split_ifs at h hm ⊢ <;> first
      | rfl
      | exact absurd hm conversionError_unchecked
      | exact absurd hm encodingError_unchecked
      | simp at h

/-- A request rejected by one of the checks of the code leaves the stores exactly as line 30
left them. -/
theorem reject_state (s : State) (sender : String) (now : Nat) (r : ActionRequest)
    (h : (handle_advance s sender now (.fields r)).status = "reject")
    (hm : (handle_advance s sender now (.fields r)).message ∈ checkMessages) :
    (handle_advance s sender now (.fields r)).state
      = { s with userBalances := initBalance s.userBalances sender } := by
  unfold handle_advance at h hm ⊢
  simp only at h hm ⊢
  split_ifs at h hm ⊢
  · exact handleCreate_reject _ _ _ _ h
  · exact handleUpdate_reject _ _ _ h hm
  · exact handleReassign_reject _ _ _ h hm
  · rfl

/-- What line 30 does to the entry of the sender: nothing when it reads truthy, and
otherwise it is replaced by 0. -/
theorem initBalance_self (b : Ledger) (sender : String) :
    initBalance b sender (keyOfString sender) = b (keyOfString sender) ∨
    ((ledgerGet b (keyOfString sender)).truthy = false ∧
      initBalance b sender (keyOfString sender) = some (.num 0)) := by
  unfold initBalance
  split
  · exact Or.inl rfl
  · rename_i hf
    by_cases hp : keyOfString sender = .name "__proto__"
    · left
      simp [ledgerSet, hp]
    · right
      refine ⟨by simpa using hf, ?_⟩
      simp [ledgerSet, hp]

/-- C3 (amended): an advance request that is rejected because the payload does not parse or
by one of the checks of the code (missing or empty fields, task not found, sender not
authorized, invalid status, unsupported action), which its message tells, leaves the Task
Store and the id counter as they were, and every ledger entry other than that of the
sender; the entry of the sender is either untouched or, having read falsy (absent, 0 or
`NaN`), has been set to 0 by line 30; the answer of the balance query is the same for every
identity; and a payload that does not parse changes no store at all. -/
theorem C3_rejected_request_frame (s : State) (sender : String) (now : Nat)
    (payload : Payload) (h : (handle_advance s sender now payload).status = "reject")
    (hwhy : (∃ m, payload = .invalid m) ∨
      (handle_advance s sender now payload).message ∈ checkMessages) :
    (handle_advance s sender now payload).state.tasks = s.tasks ∧
    (handle_advance s sender now payload).state.taskIdCounter = s.taskIdCounter ∧
    (∀ j, j ≠ keyOfString sender →
      (handle_advance s sender now payload).state.userBalances j = s.userBalances j) ∧
    ((handle_advance s sender now payload).state.userBalances (keyOfString sender)
        = s.userBalances (keyOfString sender) ∨
      ((ledgerGet s.userBalances (keyOfString sender)).truthy = false ∧
       (handle_advance s sender now payload).state.userBalances (keyOfString sender)
        = some (.num 0))) ∧
    (∀ who, balanceReply (handle_advance s sender now payload).state.userBalances who
      = balanceReply s.userBalances who) ∧
    (∀ m, payload = .invalid m →
      (handle_advance s sender now payload).state.userBalances = s.userBalances) := by
  cases payload with
  | invalid m => simp [handle_advance, reportError]
  | unreportable m => simp [handle_advance, reportError] at h
  | fields r =>
    have hm : (handle_advance s sender now (.fields r)).message ∈ checkMessages := by
      rcases hwhy with ⟨m, hm⟩ | hm
      · cases hm
      · exact hm
    rw [reject_state s sender now r h hm]
    refine ⟨rfl, rfl, fun j hj => initBalance_other _ _ _ hj, initBalance_self _ _,
      fun who => balanceReply_initBalance _ _ _, fun m hm => by cases hm⟩

/-- C3 (witness): the rejected request of the counterexample, an unsupported action sent by
`B` after task 1 was created. -/
theorem C3_rejected_request_frame_witness :
    (handle_advance (run State.init [createT1 1000]) "B" 1500
      (.fields { action := .str "noop" })).state.tasks = (run State.init [createT1 1000]).tasks ∧
    (handle_advance (run State.init [createT1 1000]) "B" 1500
      (.fields { action := .str "noop" })).state.userBalances (keyOfString "B")
      = some (.num 0) ∧
    balanceReply (handle_advance (run State.init [createT1 1000]) "B" 1500
      (.fields { action := .str "noop" })).state.userBalances "B"
      = balanceReply (run State.init [createT1 1000]).userBalances "B" :=
  have h := C3_rejected_request_frame (run State.init [createT1 1000]) "B" 1500
    (.fields { action := .str "noop" }) (by decide) (Or.inr (by decide))
  ⟨h.1, by decide, h.2.2.2.2.1 "B"⟩

/-! ## Updates -/

/-- An update request reaches the `update` case with the stores as line 30 left them. -/
theorem handle_advance_update (s : State) (sender : String) (now : Nat) (r : ActionRequest)
    (ha : r.action = .str "update") :
    handle_advance s sender now (.fields r)
      = handleUpdate { s with userBalances := initBalance s.userBalances sender } sender r := by
  unfold handle_advance
  simp [ha]

/-- A reassign request reaches the `reassign` case with the stores as line 30 left them. -/
theorem handle_advance_reassign (s : State) (sender : String) (now : Nat) (r : ActionRequest)
    (ha : r.action = .str "reassign") :
    handle_advance s sender now (.fields r)
      = handleReassign { s with userBalances := initBalance s.userBalances sender } sender r := by
  unfold handle_advance
  simp [ha]

/-- A create request reaches the `create` case with the stores as line 30 left them. -/
theorem handle_advance_create (s : State) (sender : String) (now : Nat) (r : ActionRequest)
    (ha : r.action = .str "create") :
    handle_advance s sender now (.fields r)
      = handleCreate { s with userBalances := initBalance s.userBalances sender } sender now r := by
  unfold handle_advance
  simp [ha]

/-- Unless an update moves its task from a status other than `Completed` into `Completed`,
the only ledger write of the request is line 30. -/
theorem update_without_completion_ledger (s : State) (sender : String) (now : Nat)
    (r : ActionRequest) (t : Task) (ha : r.action = .str "update")
    (ht : getTask s.tasks r.taskId.toKey = .own t)
    (hno : r.status ≠ .str "Completed" ∨ t.status = .str "Completed") :
    (handle_advance s sender now (.fields r)).state.userBalances
      = initBalance s.userBalances sender := by
  have hnc : ¬ (r.status = .str "Completed" ∧ t.status ≠ .str "Completed") := by
    rintro ⟨h1, h2⟩
    rcases hno with hno | hno
    · exact hno h1
    · exact h2 hno
  rw [handle_advance_update s sender now r ha]
  unfold handleUpdate sendNotice
  simp only [ht, hnc, if_false]
  split_ifs <;> rfl

/-- C2 (amended): an update of a stored task changes a balance only when it moves the task
from a status other than `Completed` into `Completed`. For an update request naming the
stored task `t` whose new status is not `Completed`, or whose task already is `Completed`,
the balance query answers the same for every identity after the request as before it. (Each
transition into `Completed` is rewarded, also a repeated one.) -/
theorem C2_balances_change_only_on_completion (s : State) (sender : String) (now : Nat)
    (r : ActionRequest) (t : Task) (ha : r.action = .str "update")
    (ht : getTask s.tasks r.taskId.toKey = .own t)
    (hno : r.status ≠ .str "Completed" ∨ t.status = .str "Completed") (who : String) :
    balanceReply (handle_advance s sender now (.fields r)).state.userBalances who
      = balanceReply s.userBalances who := by
  rw [update_without_completion_ledger s sender now r t ha ht hno]
  exact balanceReply_initBalance _ _ _

/-- C2 (witness): re-sending `Completed` for task 1, which `B` has completed already, is
accepted and leaves the balance of `B` at 10. -/
theorem C2_balances_change_only_on_completion_witness :
    (handle_advance (run State.init [createT1 1000, updateT1 "B" "Completed"]) "B" 2000
      (.fields { action := .str "update", taskId := .num 1,
                 status := .str "Completed" })).status = "accept" ∧
    balanceReply (handle_advance (run State.init [createT1 1000, updateT1 "B" "Completed"])
      "B" 2000 (.fields { action := .str "update", taskId := .num 1,
                          status := .str "Completed" })).state.userBalances "B"
      = "\x7b\"balance\":10\x7d" :=
  ⟨by decide,
   (C2_balances_change_only_on_completion
      (run State.init [createT1 1000, updateT1 "B" "Completed"]) "B" 2000
      { action := .str "update", taskId := .num 1, status := .str "Completed" }
      { id := 1, title := .str "T1", description := .str "D1", creator := "A",
        assignee := .str "B", status := .str "Completed", createdAt := 1000 }
      rfl (by decide) (Or.inr rfl) "B").trans (by decide)⟩

/-! ## The Task Store -/

theorem setTask_fresh (n : Nat) (t : Task) (ts : List Task) (h : ∀ u ∈ ts, u.id < n) :
    setTask n t ts = ts ++ [t] := by
  induction ts with
  | nil => rfl
  | cons u us ih =>
    have hu : u.id < n := h u (List.mem_cons_self _ _)
    have h1 : ¬ n < u.id := by omega
    have h2 : ¬ u.id = n := by omega
    simp [setTask, h1, h2, ih (fun v hv => h v (List.mem_cons_of_mem _ hv))]

theorem modifyTask_ids (n : Nat) (f : Task → Task) (ts : List Task)
    (hf : ∀ u, (f u).id = u.id) :
    (modifyTask n f ts).map (fun t => t.id) = ts.map (fun t => t.id) := by
  induction ts with
  | nil => rfl
  | cons u us ih =>
    unfold modifyTask
    split_ifs
    · simp [hf]
    · simp [ih]

theorem mem_modifyTask (n : Nat) (f : Task → Task) (ts : List Task) (t : Task)
    (h : t ∈ modifyTask n f ts) : t ∈ ts ∨ ∃ u ∈ ts, t = f u := by
  induction ts with
  | nil => simp [modifyTask] at h
  | cons u us ih =>
    unfold modifyTask at h
    split_ifs at h
    · rcases List.mem_cons.1 h with h | h
      · exact Or.inr ⟨u, List.mem_cons_self _ _, h⟩
      · exact Or.inl (List.mem_cons_of_mem _ h)
    · rcases List.mem_cons.1 h with h | h
      · exact Or.inl (h ▸ List.mem_cons_self _ _)
      · rcases ih h with h | ⟨v, hv, h⟩
        · exact Or.inl (List.mem_cons_of_mem _ h)
        · exact Or.inr ⟨v, List.mem_cons_of_mem _ hv, h⟩

theorem id_bounds (ts : List Task) (c : Nat)
    (h : ts.map (fun t => t.id) = List.range' 1 c) (u : Task) (hu : u ∈ ts) :
    1 ≤ u.id ∧ u.id < c + 1 := by
  have hm : u.id ∈ ts.map (fun t => t.id) := List.mem_map_of_mem _ hu
  rw [h, List.mem_range'_1] at hm
  omega

/-! ## Settled ledger entries -/

theorem ledgerGet_of_some (b : Ledger) (k : Key) (v : LVal) (h : b k = some v) :
    ledgerGet b k = .own v := by
  simp [ledgerGet, h]

theorem ledgerSet_proto (b : Ledger) (k : Key) (v : LVal) :
    ledgerSet b k v (.name "__proto__") = b (.name "__proto__") := by
  unfold ledgerSet
  split
  · rfl
  · rename_i hk
    have : ¬ Key.name "__proto__" = k := fun h => hk h.symm
    simp [this]

theorem initBalance_proto (b : Ledger) (sender : String) :
    initBalance b sender (.name "__proto__") = b (.name "__proto__") := by
  unfold initBalance
  split
  · rfl
  · exact ledgerSet_proto _ _ _

theorem initBalance_of_settled (b : Ledger) (sender : String)
    (h : Settled b (keyOfString sender)) : initBalance b sender = b := by
  unfold initBalance
  split
  · rfl
  · rename_i hf
    rcases h with h | h
    · exact absurd h hf
    · funext j
      unfold ledgerSet
      split
      · rfl
      · by_cases hj : j = keyOfString sender
        · simp [hj, h]
        · simp [hj]

theorem settled_initBalance_self (b : Ledger) (sender : String)
    (hp : b (.name "__proto__") = none) : Settled (initBalance b sender) (keyOfString sender) := by
  unfold initBalance
  split
  · rename_i ht
    exact Or.inl ht
  · rename_i hf
    by_cases hk : keyOfString sender = .name "__proto__"
    · exfalso
      apply hf
      rw [hk]
      simp [ledgerGet, hp, isProtoKey, BalSlot.truthy]
    · right
      simp [ledgerSet, hk]

theorem settled_initBalance (b : Ledger) (sender : String) (k : Key) (h : Settled b k) :
    Settled (initBalance b sender) k := by
  by_cases hk : k = keyOfString sender
  · subst hk
    rw [initBalance_of_settled b sender h]
    exact h
  · unfold Settled ledgerGet at h ⊢
    rw [initBalance_other b sender k hk]
    exact h

theorem append_reward_ne_empty (t : String) : t ++ toString TASK_REWARD ≠ "" := by
  intro h
  have hl := congrArg String.length h
  simp [String.length_append] at hl
  have : (toString TASK_REWARD).length = 2 := by decide
  omega

theorem settled_creditReward (b : Ledger) (a : JVal) (k : Key) (h : Settled b k) :
    Settled (creditReward b a) k := by
  unfold creditReward
  by_cases hp : a.toKey = .name "__proto__"
  · simpa [ledgerSet, hp] using h
  · by_cases hk : k = a.toKey
    · subst hk
      unfold Settled
      rw [ledgerGet_ledgerSet_same _ _ _ hp]
      have hset : ledgerSet b a.toKey (ledgerGet b a.toKey).plusReward a.toKey
          = some (ledgerGet b a.toKey).plusReward := by
        simp [ledgerSet, hp]
      rw [hset]
      rcases h with h | h
      · cases hg : ledgerGet b a.toKey with
        | undefined => simp [hg, BalSlot.truthy] at h
        | own v =>
          cases v with
          | num n =>
            by_cases hn : n + TASK_REWARD = 0
            · right
              simp [BalSlot.plusReward, hn]
            · left
              simp [BalSlot.plusReward, BalSlot.truthy, hn]
          | nan => simp [hg, BalSlot.truthy] at h
          | text t =>
            left
            simp [BalSlot.plusReward, BalSlot.truthy, append_reward_ne_empty]
        | inherited m =>
          left
          simp [BalSlot.plusReward, BalSlot.truthy, append_reward_ne_empty]
      · left
        rw [ledgerGet_of_some b _ _ h]
        simp [BalSlot.plusReward, BalSlot.truthy, TASK_REWARD]
    · unfold Settled ledgerGet at h ⊢
      rw [ledgerSet_other b _ k _ hk]
      exact h

/-! ## The invariant -/

theorem inv_init : Inv State.init :=
  ⟨rfl, rfl, fun t ht => by simp [State.init] at ht⟩

theorem inv_modify (s1 : State) (h : Inv s1) (n : Nat) (f : Task → Task)
    (hid : ∀ u, (f u).id = u.id) (hcr : ∀ u, (f u).creator = u.creator) (b : Ledger)
    (hp : b (.name "__proto__") = none)
    (hb : ∀ k, Settled s1.userBalances k → Settled b k) :
    Inv { tasks := modifyTask n f s1.tasks, userBalances := b,
          taskIdCounter := s1.taskIdCounter } := by
  refine ⟨?_, hp, ?_⟩
  · simp only [modifyTask_ids n f s1.tasks hid]
    exact h.ids
  · intro t ht
    rcases mem_modifyTask n f s1.tasks t ht with ht | ⟨u, hu, rfl⟩
    · exact hb _ (h.creators t ht)
    · rw [hcr]
      exact hb _ (h.creators u hu)

theorem handleCreate_inv (s1 : State) (sender : String) (now : Nat) (r : ActionRequest)
    (h : Inv s1) (hs : Settled s1.userBalances (keyOfString sender)) :
    Inv (handleCreate s1 sender now r).state := by
  unfold handleCreate
  split_ifs
  · exact h
  · have hfresh := setTask_fresh (s1.taskIdCounter + 1)
      { id := s1.taskIdCounter + 1, title := r.title, description := r.description,
        creator := sender, assignee := r.assignee, status := .str "Open", createdAt := now }
      s1.tasks (fun u hu => (id_bounds _ _ h.ids u hu).2)
    refine ⟨?_, h.proto, ?_⟩
    · simp only [hfresh, List.map_append, h.ids, List.range'_1_concat]
      simp [Nat.add_comm]
    · intro t ht
      simp only [hfresh] at ht
      rcases List.mem_append.1 ht with ht | ht
      · exact h.creators t ht
      · rw [List.mem_singleton] at ht
        subst ht
        exact hs

theorem handleUpdate_inv (s1 : State) (sender : String) (r : ActionRequest) (h : Inv s1) :
    Inv (handleUpdate s1 sender r).state := by
  unfold handleUpdate sendNotice
  cases hg : getTask s1.tasks r.taskId.toKey <;> simp only [hg] <;> split_ifs <;> first
    | exact h
    | (refine inv_modify s1 h _ _ ?_ ?_ _ ?_ ?_
       · exact fun _ => rfl
       · exact fun _ => rfl
       · first
           | exact h.proto
           | exact (ledgerSet_proto _ _ _).trans h.proto
       · first
           | exact fun _ hk => hk
           | exact fun k hk => settled_creditReward _ _ k hk)

theorem handleReassign_inv (s1 : State) (sender : String) (r : ActionRequest) (h : Inv s1) :
    Inv (handleReassign s1 sender r).state := by
  unfold handleReassign sendNotice
  cases hg : getTask s1.tasks r.taskId.toKey <;> simp only [hg] <;> split_ifs <;> first
    | exact h
    | (refine inv_modify s1 h _ _ ?_ ?_ _ h.proto ?_
       · exact fun _ => rfl
       · exact fun _ => rfl
       · exact fun _ hk => hk)

theorem inv_initBalance (s : State) (sender : String) (h : Inv s) :
    Inv { s with userBalances := initBalance s.userBalances sender } :=
  ⟨h.ids, (initBalance_proto _ _).trans h.proto,
    fun t ht => settled_initBalance _ _ _ (h.creators t ht)⟩

theorem handle_advance_inv (s : State) (sender : String) (now : Nat) (payload : Payload)
    (h : Inv s) : Inv (handle_advance s sender now payload).state := by
  cases payload with
  | invalid m => exact h
  | unreportable m => exact h
  | fields r =>
    have h1 := inv_initBalance s sender h
    unfold handle_advance
    simp only
    split_ifs
    · exact handleCreate_inv _ _ _ _ h1 (settled_initBalance_self _ _ h.proto)
    · exact handleUpdate_inv _ _ _ h1
    · exact handleReassign_inv _ _ _ h1
    · exact h1

theorem run_inv (steps : List Step) (s : State) (h : Inv s) : Inv (run s steps) := by
  induction steps generalizing s with
  | nil => exact h
  | cons st rest ih => exact ih _ (handle_advance_inv s st.sender st.now st.payload h)

theorem reachable_inv (s : State) (h : Reachable s) : Inv s := by
  obtain ⟨steps, rfl⟩ := h
  exact run_inv steps _ inv_init

/-! ## Identifier allocation -/

theorem run_append (s : State) (pre : List Step) (st : Step) :
    run s (pre ++ [st]) = (advance (run s pre) st).state := by
  induction pre generalizing s with
  | nil => rfl
  | cons q rest ih => exact ih _

theorem acceptedCreates_append (s : State) (pre : List Step) (st : Step) :
    acceptedCreates s (pre ++ [st])
      = acceptedCreates s pre + (if isAcceptedCreate (run s pre) st then 1 else 0) := by
  induction pre generalizing s with
  | nil => simp [acceptedCreates, run]
  | cons q rest ih =>
    have h := ih (advance s q).state
    show (if isAcceptedCreate s q then 1 else 0)
        + acceptedCreates (advance s q).state (rest ++ [st])
      = ((if isAcceptedCreate s q then 1 else 0) + acceptedCreates (advance s q).state rest)
        + (if isAcceptedCreate (run (advance s q).state rest) st then 1 else 0)
    rw [h]
    omega

/-- A create request that is accepted appends one task whose id is the incremented counter
and says so in its notice. -/
theorem accepted_create_step (s : State) (st : Step) (h : Inv s)
    (hc : isAcceptedCreate s st = true) :
    (advance s st).state.taskIdCounter = s.taskIdCounter + 1 ∧
    (advance s st).message = "Task created with ID: " ++ toString (s.taskIdCounter + 1) ∧
    ∃ t : Task, t.id = s.taskIdCounter + 1 ∧ (advance s st).state.tasks = s.tasks ++ [t] := by
  obtain ⟨sender, now, payload⟩ := st
  simp only [isAcceptedCreate, Bool.and_eq_true, decide_eq_true_eq, advance] at hc ⊢
  obtain ⟨hacc, hact⟩ := hc
  cases payload with
  | invalid m => simp [Payload.action] at hact
  | unreportable m => simp [Payload.action] at hact
  | fields r =>
    simp only [Payload.action] at hact
    rw [handle_advance_create s sender now r hact] at hacc ⊢
    unfold handleCreate at hacc ⊢
    split_ifs at hacc ⊢
    · simp at hacc
    · have hfresh := setTask_fresh (s.taskIdCounter + 1)
        { id := s.taskIdCounter + 1, title := r.title, description := r.description,
          creator := sender, assignee := r.assignee, status := .str "Open", createdAt := now }
        s.tasks (fun u hu => (id_bounds _ _ h.ids u hu).2)
      refine ⟨rfl, rfl, ?_⟩
      refine ⟨_, ?_, hfresh⟩
      rfl

/-- A request that is not an accepted create leaves the counter and the stored ids alone. -/
theorem other_step_ids (s : State) (st : Step) (hc : isAcceptedCreate s st = false) :
    (advance s st).state.taskIdCounter = s.taskIdCounter ∧
    (advance s st).state.tasks.map (fun t => t.id) = s.tasks.map (fun t => t.id) := by
  obtain ⟨sender, now, payload⟩ := st
  cases payload with
  | invalid m => exact ⟨rfl, rfl⟩
  | unreportable m => exact ⟨rfl, rfl⟩
  | fields r =>
    simp only [isAcceptedCreate, Payload.action, Bool.and_eq_false_iff, decide_eq_false_iff_not,
      advance] at hc ⊢
    unfold handle_advance at hc ⊢
    simp only at hc ⊢
    split_ifs at hc ⊢ with h1 h2 h3
    · rcases hc with hc | hc
      · unfold handleCreate at hc ⊢
        split_ifs at hc ⊢
        · exact ⟨rfl, rfl⟩
        · simp at hc
      · exact absurd h1 hc
    · unfold handleUpdate sendNotice
      cases hg : getTask s.tasks r.taskId.toKey <;> simp only [hg] <;> split_ifs <;> first
        | exact ⟨rfl, rfl⟩
        | exact ⟨rfl, modifyTask_ids _ _ _ (fun _ => rfl)⟩
    · unfold handleReassign sendNotice
      cases hg : getTask s.tasks r.taskId.toKey <;> simp only [hg] <;> split_ifs <;> first
        | exact ⟨rfl, rfl⟩
        | exact ⟨rfl, modifyTask_ids _ _ _ (fun _ => rfl)⟩
    · exact ⟨rfl, rfl⟩

theorem run_counter (pre : List Step) :
    (run State.init pre).taskIdCounter = acceptedCreates State.init pre := by
  induction pre using List.reverseRecOn with
  | nil => rfl
  | append_singleton pre st ih =>
    rw [run_append, acceptedCreates_append]
    cases hc : isAcceptedCreate (run State.init pre) st
    · simp [(other_step_ids _ st hc).1, ih]
    · simp [(accepted_create_step _ st (run_inv pre _ inv_init) hc).1, ih]

/-- C5: in every run from the initial state, after any sequence `pre` of advance requests
the stored ids are `1, ..., k` in creation order, where `k` counts the accepted create
requests of `pre` (so they increase strictly from 1 and no two tasks share an id); the next
request, if it is an accepted create, is the `k+1`-th one, stores exactly one more task, with
id `k+1`, and answers `Task created with ID: k+1`; any other request, rejected or accepted,
leaves the counter and the stored ids as they were. -/
theorem C5_sequential_ids (pre : List Step) (st : Step) :
    (run State.init pre).taskIdCounter = acceptedCreates State.init pre ∧
    (run State.init pre).tasks.map (fun t => t.id)
      = List.range' 1 (acceptedCreates State.init pre) ∧
    ((run State.init pre).tasks.map (fun t => t.id)).Nodup ∧
    (isAcceptedCreate (run State.init pre) st = true →
      (advance (run State.init pre) st).message
        = "Task created with ID: " ++ toString (acceptedCreates State.init pre + 1) ∧
      ∃ t : Task, t.id = acceptedCreates State.init pre + 1 ∧
        (advance (run State.init pre) st).state.tasks = (run State.init pre).tasks ++ [t]) ∧
    (isAcceptedCreate (run State.init pre) st = false →
      (advance (run State.init pre) st).state.taskIdCounter
        = (run State.init pre).taskIdCounter ∧
      (advance (run State.init pre) st).state.tasks.map (fun t => t.id)
        = (run State.init pre).tasks.map (fun t => t.id)) := by
  have hinv := run_inv pre _ inv_init
  have hcount := run_counter pre
  have hids := hinv.ids
  rw [hcount] at hids
  refine ⟨hcount, hids, ?_, ?_, other_step_ids _ st⟩
  · rw [hids]
    exact List.nodup_range' 1 _
  · intro hc
    have h := accepted_create_step _ st hinv hc
    rw [hcount] at h
    exact ⟨h.2.1, h.2.2⟩

/-! ## Requests that name a stored task -/

theorem find_stored (ts : List Task) (hnd : (ts.map (fun t => t.id)).Nodup) (t : Task)
    (ht : t ∈ ts) : ts.find? (fun u => decide (u.id = t.id)) = some t := by
  induction ts with
  | nil => cases ht
  | cons u us ih =>
    rw [List.map_cons, List.nodup_cons] at hnd
    rcases List.mem_cons.1 ht with rfl | ht
    · simp
    · have hne : u.id ≠ t.id := fun h => hnd.1 (h ▸ List.mem_map_of_mem (fun t => t.id) ht)
      simp [List.find?, hne, ih hnd.2 ht]

theorem modifyTask_eq_map (n : Nat) (f : Task → Task) (ts : List Task)
    (hnd : (ts.map (fun t => t.id)).Nodup) :
    modifyTask n f ts = ts.map (fun u => if u.id = n then f u else u) := by
  induction ts with
  | nil => rfl
  | cons u us ih =>
    rw [List.map_cons, List.nodup_cons] at hnd
    unfold modifyTask
    split_ifs with hu
    · have hrest : us.map (fun v => if v.id = n then f v else v) = us := by
        conv_rhs => rw [← List.map_id us]
        apply List.map_congr_left
        intro v hv
        have hne : v.id ≠ n := fun h =>
          hnd.1 (by rw [hu, ← h]; exact List.mem_map_of_mem (fun t => t.id) hv)
        simp [hne]
      simp [hu, hrest]
    · simp [hu, ih hnd.2]

theorem inv_nodup (s : State) (h : Inv s) : (s.tasks.map (fun t => t.id)).Nodup := by
  rw [h.ids]
  exact List.nodup_range' 1 _

/-- The request field `taskId: t.id` is truthy and reads the stored task `t`. -/
theorem getTask_stored (s : State) (h : Inv s) (t : Task) (ht : t ∈ s.tasks) :
    (JVal.num (t.id : Int)).truthy = true ∧
    getTask s.tasks (JVal.num (t.id : Int)).toKey = .own t := by
  have hpos := (id_bounds _ _ h.ids t ht).1
  constructor
  · simp only [JVal.truthy, decide_eq_true_eq]
    omega
  · simp [JVal.toKey, getTask, find_stored s.tasks (inv_nodup s h) t ht]

theorem getTask_missing (ts : List Task) (k : Key) (hmiss : ∀ t ∈ ts, k ≠ .idx t.id)
    (hproto : isProtoKey k = false) : getTask ts k = .undefined := by
  cases k with
  | idx n =>
    have hnone : ts.find? (fun t => decide (t.id = n)) = none := by
      rw [List.find?_eq_none]
      intro t ht hid
      exact hmiss t ht (by simpa using congrArg Key.idx (of_decide_eq_true hid).symm)
    simp [getTask, hnone]
  | name m => simp [getTask, hproto]

/-- C6: in every reachable state, for a stored task `t` and an update request naming it,
a sender that is neither the creator nor the assignee of `t` and supplies a non-empty status
(valid or not) is rejected with the authorization error and the Task Store, hence the status
of `t`, is unchanged; and a sender that is the creator or the assignee of `t` is never
rejected with that error, whatever the status field holds. -/
theorem C6_update_authorization (s : State) (hs : Reachable s) (t : Task) (ht : t ∈ s.tasks)
    (sender : String) (now : Nat) (r : ActionRequest) (ha : r.action = .str "update")
    (hid : r.taskId = .num t.id) :
    (sender ≠ t.creator ∧ JVal.str sender ≠ t.assignee ∧ r.status.truthy = true →
      (handle_advance s sender now (.fields r)).status = "reject" ∧
      (handle_advance s sender now (.fields r)).message
        = "Only the task creator or assignee can update the task." ∧
      (handle_advance s sender now (.fields r)).state.tasks = s.tasks) ∧
    (sender = t.creator ∨ JVal.str sender = t.assignee →
      ¬ ((handle_advance s sender now (.fields r)).status = "reject" ∧
         (handle_advance s sender now (.fields r)).message
          = "Only the task creator or assignee can update the task.")) := by
  obtain ⟨htruthy, hget⟩ := getTask_stored s (reachable_inv s hs) t ht
  have hconv : (JVal.num (t.id : Int)).converts = true := rfl
  rw [handle_advance_update s sender now r ha]
  unfold handleUpdate sendNotice
  simp only [hid, htruthy, hget, hconv, Bool.not_true, Bool.false_eq_true, if_false]
  constructor
  · rintro ⟨h1, h2, h3⟩
    simp [h1, h2, h3]
  · intro h
    have hauth : ¬ (JVal.str sender ≠ t.assignee ∧ sender ≠ t.creator) := by
      rintro ⟨h1, h2⟩
      rcases h with h | h
      · exact h2 h
      · exact h1 h
    split_ifs <;> simp [conversionError, encodingError]

/-- C6 (witness): task 1 of the scenario, created by `A` for `B`, and the update that `C`
sends in scenario 4. -/
theorem C6_update_authorization_witness :
    (handle_advance (run State.init [createT1 1000]) "C" 2000
      (.fields { action := .str "update", taskId := .num 1, status := .str "Open" })).message
      = "Only the task creator or assignee can update the task." :=
  ((C6_update_authorization (run State.init [createT1 1000]) ⟨[createT1 1000], rfl⟩
      { id := 1, title := .str "T1", description := .str "D1", creator := "A",
        assignee := .str "B", status := .str "Open", createdAt := 1000 }
      (by decide) "C" 2000
      { action := .str "update", taskId := .num 1, status := .str "Open" } rfl rfl).1
    (by decide)).2.1

/-- C7: in every reachable state, for a stored task `t`, a reassign request naming `t` with a
non-empty assignee, sent by anyone other than the creator of `t` (its current assignee
included), is rejected with the authorization error and the Task Store, hence the assignee
of `t`, is unchanged. -/
theorem C7_reassign_authorization (s : State) (hs : Reachable s) (t : Task)
    (ht : t ∈ s.tasks) (sender : String) (now : Nat) (r : ActionRequest)
    (ha : r.action = .str "reassign") (hid : r.taskId = .num t.id)
    (hne : sender ≠ t.creator) (hassignee : r.assignee.truthy = true) :
    (handle_advance s sender now (.fields r)).status = "reject" ∧
    (handle_advance s sender now (.fields r)).message
      = "Only the task creator can reassign the task." ∧
    (handle_advance s sender now (.fields r)).state.tasks = s.tasks := by
  obtain ⟨htruthy, hget⟩ := getTask_stored s (reachable_inv s hs) t ht
  have hconv : (JVal.num (t.id : Int)).converts = true := rfl
  rw [handle_advance_reassign s sender now r ha]
  unfold handleReassign sendNotice
  simp [hid, htruthy, hget, hne, hassignee, hconv]

/-- C7 (witness): the assignee `B` of task 1 tries to hand the task to `C`. -/
theorem C7_reassign_authorization_witness :
    (handle_advance (run State.init [createT1 1000]) "B" 2000
      (.fields { action := .str "reassign", taskId := .num 1, assignee := .str "C" })).message
      = "Only the task creator can reassign the task." :=
  (C7_reassign_authorization (run State.init [createT1 1000]) ⟨[createT1 1000], rfl⟩
      { id := 1, title := .str "T1", description := .str "D1", creator := "A",
        assignee := .str "B", status := .str "Open", createdAt := 1000 }
      (by decide) "B" 2000
      { action := .str "reassign", taskId := .num 1, assignee := .str "C" } rfl rfl
      (by decide) (by decide)).2.1

/-- C8: in every reachable state, an accepted reassign request of the creator of a stored
task `t` that names `t` replaces the assignee of `t` by the requested one and changes
nothing else: the other fields of `t`, every other task, the order of the tasks, the id
counter and the whole Ledger Store are as before (line 30 finds the entry of a task creator
settled). -/
theorem C8_reassign_frame (s : State) (hs : Reachable s) (t : Task) (ht : t ∈ s.tasks)
    (now : Nat) (r : ActionRequest) (ha : r.action = .str "reassign")
    (hid : r.taskId = .num t.id)
    (hacc : (handle_advance s t.creator now (.fields r)).status = "accept") :
    (handle_advance s t.creator now (.fields r)).state.tasks
      = s.tasks.map (fun u => if u.id = t.id then { u with assignee := r.assignee } else u) ∧
    getTask (handle_advance s t.creator now (.fields r)).state.tasks (JVal.num t.id).toKey
      = .own { t with assignee := r.assignee } ∧
    (handle_advance s t.creator now (.fields r)).state.taskIdCounter = s.taskIdCounter ∧
    (handle_advance s t.creator now (.fields r)).state.userBalances = s.userBalances := by
  have hinv := reachable_inv s hs
  obtain ⟨htruthy, hget⟩ := getTask_stored s hinv t ht
  have hledger : initBalance s.userBalances t.creator = s.userBalances :=
    initBalance_of_settled _ _ (hinv.creators t ht)
  have hconv : (JVal.num (t.id : Int)).converts = true := rfl
  have hmain : modifyTask t.id (fun u => { u with assignee := r.assignee }) s.tasks
        = s.tasks.map (fun u => if u.id = t.id then { u with assignee := r.assignee } else u) ∧
      getTask (modifyTask t.id (fun u => { u with assignee := r.assignee }) s.tasks)
          (JVal.num t.id).toKey
        = .own { t with assignee := r.assignee } ∧
      s.taskIdCounter = s.taskIdCounter ∧ s.userBalances = s.userBalances := by
    have hmap := modifyTask_eq_map t.id (fun u => { u with assignee := r.assignee }) s.tasks
      (inv_nodup s hinv)
    refine ⟨hmap, ?_, rfl, rfl⟩
    simp only [hmap, JVal.toKey, getTask]
    have hfind : (s.tasks.map (fun u => if u.id = t.id then { u with assignee := r.assignee }
        else u)).find? (fun u => decide (u.id = t.id))
        = some { t with assignee := r.assignee } := by
      have hstored := find_stored s.tasks (inv_nodup s hinv) t ht
      rw [List.find?_map]
      have hcomp : ((fun u : Task => decide (u.id = t.id)) ∘
          fun u : Task => if u.id = t.id then { u with assignee := r.assignee } else u)
          = fun u : Task => decide (u.id = t.id) := by
        funext u
        by_cases hu : u.id = t.id <;> simp [hu]
      rw [hcomp, hstored]
      simp
    simp [hfind]
  rw [handle_advance_reassign s t.creator now r ha] at hacc ⊢
  unfold handleReassign sendNotice at hacc ⊢
  simp only [hid, htruthy, hget, hledger, hconv, Bool.not_true, Bool.false_eq_true,
    if_false] at hacc ⊢
  split_ifs at hacc ⊢ <;> first
    | exact hmain
    | exact absurd rfl ‹¬ t.creator = t.creator›
    | simp at hacc

/-- C8 (witness): `A`, the creator of task 1, hands the task to `C`. -/
theorem C8_reassign_frame_witness :
    (handle_advance (run State.init [createT1 1000]) "A" 2000
      (.fields { action := .str "reassign", taskId := .num 1,
                 assignee := .str "C" })).state.userBalances
      = (run State.init [createT1 1000]).userBalances :=
  (C8_reassign_frame (run State.init [createT1 1000]) ⟨[createT1 1000], rfl⟩
      { id := 1, title := .str "T1", description := .str "D1", creator := "A",
        assignee := .str "B", status := .str "Open", createdAt := 1000 }
      (by decide) 2000
      { action := .str "reassign", taskId := .num 1, assignee := .str "C" } rfl rfl
      (by decide)).2.2.2

/-- C9 (amended): take an update request with a truthy `status`, or a reassign request with
a truthy `assignee`. If its `taskId` is truthy, converts to a property key (line 56 or 81
does not throw), and that key is neither the key of a stored task nor the name of a member
of `Object.prototype`, the request is rejected with `Task does not exist.`, whoever sends
it, and the Task Store and the id counter are unchanged. If its `taskId` is falsy (absent,
0, empty), it is rejected with the validation error of its case instead. If its `taskId` is
truthy and its conversion throws, the request is rejected as well, with the Task Store and
the id counter unchanged. -/
theorem C9_not_found (s : State) (sender : String) (now : Nat) (r : ActionRequest)
    (hreq : (r.action = .str "update" ∧ r.status.truthy = true) ∨
      (r.action = .str "reassign" ∧ r.assignee.truthy = true)) :
    (r.taskId.truthy = true → r.taskId.converts = true →
      (∀ t ∈ s.tasks, r.taskId.toKey ≠ .idx t.id) → isProtoKey r.taskId.toKey = false →
      (handle_advance s sender now (.fields r)).status = "reject" ∧
      (handle_advance s sender now (.fields r)).message = "Task does not exist." ∧
      (handle_advance s sender now (.fields r)).state.tasks = s.tasks ∧
      (handle_advance s sender now (.fields r)).state.taskIdCounter = s.taskIdCounter) ∧
    (r.taskId.truthy = false →
      (handle_advance s sender now (.fields r)).status = "reject" ∧
      (handle_advance s sender now (.fields r)).message
        = if r.action = .str "update" then "TaskId and status are required for update."
          else "TaskId and new assignee are required for reassignment.") ∧
    (r.taskId.truthy = true → r.taskId.converts = false →
      (handle_advance s sender now (.fields r)).status = "reject" ∧
      (handle_advance s sender now (.fields r)).message ≠ "Task does not exist." ∧
      (handle_advance s sender now (.fields r)).state.tasks = s.tasks ∧
      (handle_advance s sender now (.fields r)).state.taskIdCounter = s.taskIdCounter) := by
  refine ⟨?_, ?_, ?_⟩
  · intro htid hconv hmiss hproto
    have hget := getTask_missing s.tasks r.taskId.toKey hmiss hproto
    rcases hreq with ⟨ha, hf⟩ | ⟨ha, hf⟩
    · rw [handle_advance_update s sender now r ha]
      unfold handleUpdate sendNotice
      simp [htid, hf, hget, hconv]
    · rw [handle_advance_reassign s sender now r ha]
      unfold handleReassign sendNotice
      simp [htid, hf, hget, hconv]
  · intro htid
    rcases hreq with ⟨ha, hf⟩ | ⟨ha, hf⟩
    · rw [handle_advance_update s sender now r ha]
      unfold handleUpdate sendNotice
      simp [htid, ha]
    · rw [handle_advance_reassign s sender now r ha]
      unfold handleReassign sendNotice
      simp [htid, ha]
  · intro htid hconv
    rcases hreq with ⟨ha, hf⟩ | ⟨ha, hf⟩
    · rw [handle_advance_update s sender now r ha]
      unfold handleUpdate sendNotice
      simp [htid, hf, hconv, conversionError]
    · rw [handle_advance_reassign s sender now r ha]
      unfold handleReassign sendNotice
      simp [htid, hf, hconv, conversionError]

/-- C9 (witness): an update of task 2 when only task 1 is stored. -/
theorem C9_not_found_witness :
    (handle_advance (run State.init [createT1 1000]) "A" 2000
      (.fields { action := .str "update", taskId := .num 2, status := .str "Open" })).message
      = "Task does not exist." :=
  ((C9_not_found (run State.init [createT1 1000]) "A" 2000
      { action := .str "update", taskId := .num 2, status := .str "Open" }
      (Or.inl ⟨rfl, by decide⟩)).1 (by decide) (by decide) (by decide) (by decide)).2.1

/-! ## Replay under different clocks -/

theorem getTask_untimed (ts : List Task) (k : Key) :
    getTask (ts.map Task.untimed) k
      = match getTask ts k with
        | .own t => .own t.untimed
        | .undefined => .undefined
        | .inherited m => .inherited m := by
  cases k with
  | idx n =>
    have hcomp : ((fun t : Task => decide (t.id = n)) ∘ Task.untimed)
        = fun t : Task => decide (t.id = n) := rfl
    simp only [getTask, List.find?_map, hcomp]
    cases ts.find? (fun t => decide (t.id = n)) <;> rfl
  | name m =>
    simp only [getTask]
    split_ifs <;> rfl

theorem setTask_untimed (n : Nat) (t : Task) (ts : List Task) :
    setTask n t.untimed (ts.map Task.untimed) = (setTask n t ts).map Task.untimed := by
  induction ts with
  | nil => rfl
  | cons u us ih =>
    simp only [List.map_cons, setTask]
    have hid : u.untimed.id = u.id := rfl
    rw [hid]
    split_ifs
    · rfl
    · rfl
    · simp [ih]

theorem modifyTask_untimed (n : Nat) (f : Task → Task) (ts : List Task)
    (hf : ∀ u, f u.untimed = (f u).untimed) :
    modifyTask n f (ts.map Task.untimed) = (modifyTask n f ts).map Task.untimed := by
  induction ts with
  | nil => rfl
  | cons u us ih =>
    simp only [List.map_cons, modifyTask]
    have hid : u.untimed.id = u.id := rfl
    rw [hid]
    split_ifs
    · simp [hf]
    · simp [ih]

/-- The `create` case commutes with blanking the clock. -/
theorem handleCreate_untimed (s1 : State) (sender : String) (now : Nat) (r : ActionRequest) :
    (handleCreate s1.untimed sender 0 r).status = (handleCreate s1 sender now r).status ∧
    (handleCreate s1.untimed sender 0 r).message = (handleCreate s1 sender now r).message ∧
    (handleCreate s1.untimed sender 0 r).state = (handleCreate s1 sender now r).state.untimed := by
  unfold handleCreate
  split_ifs
  · exact ⟨rfl, rfl, rfl⟩
  · refine ⟨rfl, rfl, ?_⟩
    simp only [State.untimed]
    rw [← setTask_untimed]
    rfl

/-- The `update` case reads no `createdAt` field. -/
theorem handleUpdate_untimed (s1 : State) (sender : String) (r : ActionRequest) :
    (handleUpdate s1.untimed sender r).status = (handleUpdate s1 sender r).status ∧
    (handleUpdate s1.untimed sender r).message = (handleUpdate s1 sender r).message ∧
    (handleUpdate s1.untimed sender r).state = (handleUpdate s1 sender r).state.untimed := by
  unfold handleUpdate sendNotice
  have hget := getTask_untimed s1.tasks r.taskId.toKey
  have htasks : s1.untimed.tasks = s1.tasks.map Task.untimed := rfl
  rw [htasks, hget]
  cases hg : getTask s1.tasks r.taskId.toKey with
  | undefined => simp only; split_ifs <;> exact ⟨rfl, rfl, rfl⟩
  | inherited m => simp only; split_ifs <;> exact ⟨rfl, rfl, rfl⟩
  | own t =>
    simp only
    have h1 : t.untimed.assignee = t.assignee := rfl
    have h2 : t.untimed.creator = t.creator := rfl
    have h3 : t.untimed.status = t.status := rfl
    have h4 : t.untimed.id = t.id := rfl
    rw [h1, h2, h3, h4]
    have hmod := modifyTask_untimed t.id (fun u => { u with status := r.status }) s1.tasks
      (fun _ => rfl)
    split_ifs <;> first
      | exact ⟨rfl, rfl, rfl⟩
      | (refine ⟨rfl, rfl, ?_⟩
         simp only [State.untimed, hmod])

/-- The `reassign` case reads no `createdAt` field. -/
theorem handleReassign_untimed (s1 : State) (sender : String) (r : ActionRequest) :
    (handleReassign s1.untimed sender r).status = (handleReassign s1 sender r).status ∧
    (handleReassign s1.untimed sender r).message = (handleReassign s1 sender r).message ∧
    (handleReassign s1.untimed sender r).state = (handleReassign s1 sender r).state.untimed := by
  unfold handleReassign sendNotice
  have hget := getTask_untimed s1.tasks r.taskId.toKey
  have htasks : s1.untimed.tasks = s1.tasks.map Task.untimed := rfl
  rw [htasks, hget]
  cases hg : getTask s1.tasks r.taskId.toKey with
  | undefined => simp only; split_ifs <;> exact ⟨rfl, rfl, rfl⟩
  | inherited m => simp only; split_ifs <;> exact ⟨rfl, rfl, rfl⟩
  | own t =>
    simp only
    have h2 : t.untimed.creator = t.creator := rfl
    have h4 : t.untimed.id = t.id := rfl
    rw [h2, h4]
    have hmod := modifyTask_untimed t.id (fun u => { u with assignee := r.assignee }) s1.tasks
      (fun _ => rfl)
    split_ifs <;> first
      | exact ⟨rfl, rfl, rfl⟩
      | (refine ⟨rfl, rfl, ?_⟩
         simp only [State.untimed, hmod])

/-- Processing a request commutes with blanking the clock. -/
theorem advance_untimed (s : State) (st : Step) :
    (advance s.untimed st.untimed).status = (advance s st).status ∧
    (advance s.untimed st.untimed).message = (advance s st).message ∧
    (advance s.untimed st.untimed).state = (advance s st).state.untimed := by
  obtain ⟨sender, now, payload⟩ := st
  cases payload with
  | invalid m => exact ⟨rfl, rfl, rfl⟩
  | unreportable m => exact ⟨rfl, rfl, rfl⟩
  | fields r =>
    simp only [advance, Step.untimed]
    unfold handle_advance
    simp only
    split_ifs
    · exact handleCreate_untimed
        { s with userBalances := initBalance s.userBalances sender } sender now r
    · exact handleUpdate_untimed
        { s with userBalances := initBalance s.userBalances sender } sender r
    · exact handleReassign_untimed
        { s with userBalances := initBalance s.userBalances sender } sender r
    · exact ⟨rfl, rfl, rfl⟩

theorem run_untimed (steps : List Step) (s : State) :
    run s.untimed (steps.map Step.untimed) = (run s steps).untimed := by
  induction steps generalizing s with
  | nil => rfl
  | cons st rest ih =>
    simp only [List.map_cons, run]
    rw [(advance_untimed s st).2.2]
    exact ih _

theorem emitted_untimed (steps : List Step) (s : State) :
    emitted s.untimed (steps.map Step.untimed) = emitted s steps := by
  induction steps generalizing s with
  | nil => rfl
  | cons st rest ih =>
    simp only [List.map_cons, emitted]
    rw [(advance_untimed s st).1, (advance_untimed s st).2.1, (advance_untimed s st).2.2]
    rw [ih]

/-- An inspect query sees the clock only through the `createdAt` fields it serialises. -/
theorem handle_inspect_untimed (s : State) (sender payload : String) :
    handle_inspect s.untimed sender payload
      = (handle_inspect s sender payload).map Body.untimed := by
  unfold handle_inspect
  cases splitOn ' ' payload.data with
  | nil => rfl
  | cons route params =>
    simp only
    split_ifs
    · rfl
    · unfold inspectTask
      cases params with
      | nil => rfl
      | cons q qs =>
        simp only
        have htasks : s.untimed.tasks = s.tasks.map Task.untimed := rfl
        rw [htasks, getTask_untimed]
        cases getTask s.tasks (taskIdOf q) with
        | undefined => rfl
        | own t => rfl
        | inherited m => simp only; split_ifs <;> rfl
    · rfl
    · have htasks : s.untimed.tasks = s.tasks.map Task.untimed := rfl
      simp only [htasks, List.filter_map, Option.map_some', Body.untimed]
      rfl
    · rfl

/-- C4 (amended): two runs from the initial state that process the same ordered sequence of
requests (same senders, same payloads) under arbitrary clocks give every advance request the
same outcome and the same message, end with equal Ledger Stores, equal id counters and Task
Stores that are equal up to the `createdAt` fields, and answer every inspect query with
responses that are equal up to the `createdAt` fields they serialise. -/
theorem C4_replay_up_to_clock (steps1 steps2 : List Step)
    (h : steps1.map Step.untimed = steps2.map Step.untimed) :
    emitted State.init steps1 = emitted State.init steps2 ∧
    (run State.init steps1).userBalances = (run State.init steps2).userBalances ∧
    (run State.init steps1).taskIdCounter = (run State.init steps2).taskIdCounter ∧
    (run State.init steps1).tasks.map Task.untimed
      = (run State.init steps2).tasks.map Task.untimed ∧
    ∀ sender payload : String,
      (handle_inspect (run State.init steps1) sender payload).map Body.untimed
        = (handle_inspect (run State.init steps2) sender payload).map Body.untimed := by
  have hinit : State.init.untimed = State.init := rfl
  have hrun : (run State.init steps1).untimed = (run State.init steps2).untimed := by
    rw [← run_untimed steps1, ← run_untimed steps2, h]
  have hem : emitted State.init steps1 = emitted State.init steps2 := by
    rw [← emitted_untimed steps1 State.init, ← emitted_untimed steps2 State.init, h]
  have hledger := congrArg State.userBalances hrun
  have hcounter := congrArg State.taskIdCounter hrun
  have htasks := congrArg State.tasks hrun
  refine ⟨hem, hledger, hcounter, htasks, ?_⟩
  intro sender payload
  rw [← handle_inspect_untimed, ← handle_inspect_untimed, hrun]

/-- C4 (witness): the two runs of the counterexample, which create task 1 at clock readings
1000 and 1001, and then complete it. -/
theorem C4_replay_up_to_clock_witness :
    emitted State.init [createT1 1000, updateT1 "B" "Completed"]
      = emitted State.init [createT1 1001, updateT1 "B" "Completed"] ∧
    (handle_inspect (run State.init [createT1 1000, updateT1 "B" "Completed"]) "A"
        "list").map Body.untimed
      = (handle_inspect (run State.init [createT1 1001, updateT1 "B" "Completed"]) "A"
        "list").map Body.untimed :=
  have h := C4_replay_up_to_clock [createT1 1000, updateT1 "B" "Completed"]
    [createT1 1001, updateT1 "B" "Completed"] (by decide)
  ⟨h.1, h.2.2.2.2 "A" "list"⟩

/-! ## Unsupported and malformed payloads -/

/-- C20 (failing input): the payload text consisting of the one character U+1F600 is no
JSON; the message of the `SyntaxError` of line 28 quotes the code unit at which parsing
stopped, the first half of the surrogate pair of that character. The `catch` block encodes
this message on line 110 outside any `try`; `str2hex` throws on the unpaired surrogate, so
`handle_advance` raises instead of returning `reject`, in every state and for every
sender, leaving the stores as they were. -/
theorem C20_unreportable_parse_error_throws (s : State) (sender : String) (now : Nat)
    (message : String) :
    (handle_advance s sender now (.unreportable message)).thrown = true ∧
    (handle_advance s sender now (.unreportable message)).status ≠ "accept" ∧
    (handle_advance s sender now (.unreportable message)).status ≠ "reject" ∧
    (handle_advance s sender now (.unreportable message)).state.tasks = s.tasks ∧
    (handle_advance s sender now (.unreportable message)).state.taskIdCounter
      = s.taskIdCounter ∧
    (handle_advance s sender now (.unreportable message)).state.userBalances
      = s.userBalances := by
  refine ⟨rfl, ?_, ?_, rfl, rfl, rfl⟩
  · simp [handle_advance, reportError]
  · simp [handle_advance, reportError]

/-- Apart from a parse error whose message cannot be encoded, every payload ends in
`accept` or `reject`: a payload on which line 28 throws is rejected with the message of that
exception and no store is written, and a payload whose `action` is absent or is anything
other than `create`, `update` and `reassign` is rejected with the message of the default
case, the Task Store and the id counter being as before. -/
theorem handle_advance_returns (s : State) (sender : String) (now : Nat)
    (payload : Payload) (hreportable : ∀ m, payload ≠ .unreportable m) :
    ((handle_advance s sender now payload).status = "accept" ∨
      (handle_advance s sender now payload).status = "reject") ∧
    (handle_advance s sender now payload).thrown = false ∧
    (∀ m, payload = .invalid m →
      (handle_advance s sender now payload).status = "reject" ∧
      (handle_advance s sender now payload).message = m ∧
      (handle_advance s sender now payload).state.tasks = s.tasks ∧
      (handle_advance s sender now payload).state.taskIdCounter = s.taskIdCounter ∧
      (handle_advance s sender now payload).state.userBalances = s.userBalances) ∧
    (∀ r, payload = .fields r → r.action ≠ .str "create" → r.action ≠ .str "update" →
      r.action ≠ .str "reassign" →
      (handle_advance s sender now payload).status = "reject" ∧
      (handle_advance s sender now payload).message
        = "Invalid action. Use 'create', 'update', or 'reassign'." ∧
      (handle_advance s sender now payload).state.tasks = s.tasks ∧
      (handle_advance s sender now payload).state.taskIdCounter = s.taskIdCounter) := by
  refine ⟨?_, ?_, ?_, ?_⟩
  · cases payload with
    | invalid m => exact Or.inr rfl
    | unreportable m => exact absurd rfl (hreportable m)
    | fields r =>
      unfold handle_advance
      simp only
      split_ifs
      · unfold handleCreate
        split_ifs
        · exact Or.inr rfl
        · exact Or.inl rfl
      · unfold handleUpdate sendNotice
        cases hg : getTask s.tasks r.taskId.toKey <;> simp only [hg] <;> split_ifs <;> first
          | exact Or.inr rfl
          | exact Or.inl rfl
      · unfold handleReassign sendNotice
        cases hg : getTask s.tasks r.taskId.toKey <;> simp only [hg] <;> split_ifs <;> first
          | exact Or.inr rfl
          | exact Or.inl rfl
      · exact Or.inr rfl
  · cases payload with
    | invalid m => rfl
    | unreportable m => exact absurd rfl (hreportable m)
    | fields r =>
      unfold handle_advance
      simp only
      split_ifs
      · unfold handleCreate
        split_ifs <;> rfl
      · unfold handleUpdate sendNotice
        cases hg : getTask s.tasks r.taskId.toKey <;> simp only [hg] <;> split_ifs <;> rfl
      · unfold handleReassign sendNotice
        cases hg : getTask s.tasks r.taskId.toKey <;> simp only [hg] <;> split_ifs <;> rfl
      · rfl
  · rintro m rfl
    exact ⟨rfl, rfl, rfl, rfl, rfl⟩
  · rintro r rfl h1 h2 h3
    unfold handle_advance
    simp [h1, h2, h3]

/-! ## Updates that do not reward -/

theorem find_modifyTask (n : Nat) (f : Task → Task) (ts : List Task) (t : Task)
    (hf : ∀ u, (f u).id = u.id)
    (h : ts.find? (fun u => decide (u.id = n)) = some t) :
    (modifyTask n f ts).find? (fun u => decide (u.id = n)) = some (f t) := by
  induction ts with
  | nil => simp at h
  | cons u us ih =>
    unfold modifyTask
    by_cases hu : u.id = n
    · simp only [List.find?, hu, decide_True] at h
      simp only [hu, if_true, List.find?, hf, decide_True]
      cases h
      rfl
    · simp only [List.find?, hu, decide_False] at h
      simp only [hu, if_false, List.find?, decide_False]
      exact ih h

/-- The record a key reads after `modifyTask` has rewritten the record it read before. -/
theorem getTask_modifyTask (ts : List Task) (k : Key) (t : Task) (f : Task → Task)
    (hf : ∀ u, (f u).id = u.id) (h : getTask ts k = .own t) :
    getTask (modifyTask t.id f ts) k = .own (f t) := by
  cases k with
  | idx n =>
    simp only [getTask] at h ⊢
    cases hfind : ts.find? (fun u => decide (u.id = n)) with
    | none => simp [hfind] at h
    | some u =>
      simp only [hfind, TaskSlot.own.injEq] at h
      subst h
      have hid : u.id = n := by
        have hp := List.find?_some hfind
        simpa using hp
      rw [hid, find_modifyTask n f ts u hf hfind]
  | name m =>
    simp only [getTask] at h
    split_ifs at h

/-- C11: an accepted update request whose new status is not `Completed`, or whose task
already has status `Completed`, writes the requested status to the task, changes no other
field of it, and leaves the answer of the balance query unchanged for every identity: a
repeated `Completed` credits nothing and a move out of `Completed` takes nothing back. -/
theorem C11_non_reward_transition (s : State) (sender : String) (now : Nat)
    (r : ActionRequest) (t : Task) (ha : r.action = .str "update")
    (ht : getTask s.tasks r.taskId.toKey = .own t)
    (hacc : (handle_advance s sender now (.fields r)).status = "accept")
    (hno : r.status ≠ .str "Completed" ∨ t.status = .str "Completed") :
    getTask (handle_advance s sender now (.fields r)).state.tasks r.taskId.toKey
      = .own { t with status := r.status } ∧
    (∀ who, balanceReply (handle_advance s sender now (.fields r)).state.userBalances who
      = balanceReply s.userBalances who) ∧
    (∀ j, j ≠ keyOfString sender →
      (handle_advance s sender now (.fields r)).state.userBalances j = s.userBalances j) := by
  have hledger := update_without_completion_ledger s sender now r t ha ht hno
  refine ⟨?_, ?_, ?_⟩
  · rw [handle_advance_update s sender now r ha] at hacc ⊢
    unfold handleUpdate sendNotice at hacc ⊢
    simp only [ht] at hacc ⊢
    have hget := getTask_modifyTask s.tasks r.taskId.toKey t
      (fun u => { u with status := r.status }) (fun _ => rfl) ht
    split_ifs at hacc ⊢ <;> first
      | exact hget
      | simp at hacc
  · intro who
    rw [hledger]
    exact balanceReply_initBalance _ _ _
  · intro j hj
    rw [hledger]
    exact initBalance_other _ _ _ hj

/-- C11 (witness): `B` moves task 1, which it has completed, back to `Open`; its balance
stays at 10. -/
theorem C11_non_reward_transition_witness :
    getTask (handle_advance (run State.init [createT1 1000, updateT1 "B" "Completed"]) "B"
        2000 (.fields { action := .str "update", taskId := .num 1,
                        status := .str "Open" })).state.tasks (JVal.num 1).toKey
      = .own { id := 1, title := .str "T1", description := .str "D1", creator := "A",
               assignee := .str "B", status := .str "Open", createdAt := 1000 } ∧
    balanceReply (handle_advance (run State.init [createT1 1000, updateT1 "B" "Completed"])
        "B" 2000 (.fields { action := .str "update", taskId := .num 1,
                            status := .str "Open" })).state.userBalances "B"
      = "\x7b\"balance\":10\x7d" :=
  have h := C11_non_reward_transition
    (run State.init [createT1 1000, updateT1 "B" "Completed"]) "B" 2000
    { action := .str "update", taskId := .num 1, status := .str "Open" }
    { id := 1, title := .str "T1", description := .str "D1", creator := "A",
      assignee := .str "B", status := .str "Completed", createdAt := 1000 }
    rfl (by decide) (by decide) (Or.inl (by decide))
  ⟨h.1, (h.2.1 "B").trans (by decide)⟩

/-! ## The `my_tasks` query -/

/-- C12: in every reachable state the `my_tasks` query of a sender reports the list of the
stored tasks of which the sender is the creator or the assignee: a task is in the list
exactly if it is stored and related to the sender, no task occurs twice, the ids increase
strictly along the list (creation order, the list being a sublist of the Task Store), and
the list is empty for a sender related to no task. -/
theorem C12_my_tasks (s : State) (hs : Reachable s) (sender : String) :
    ∃ ts : List Task,
      handle_inspect s sender "my_tasks" = some (.tasksJson ts) ∧
      (∀ t, t ∈ ts ↔ t ∈ s.tasks ∧ (t.creator = sender ∨ t.assignee = .str sender)) ∧
      ts.Nodup ∧
      (ts.map (fun t => t.id)).Pairwise (fun a b => a < b) ∧
      ts.Sublist s.tasks ∧
      ((∀ t ∈ s.tasks, t.creator ≠ sender ∧ t.assignee ≠ .str sender) → ts = []) := by
  have hinv := reachable_inv s hs
  have hsorted : (s.tasks.map (fun t => t.id)).Pairwise (fun a b => a < b) := by
    rw [hinv.ids]
    exact List.pairwise_lt_range' 1 _
  refine ⟨s.tasks.filter (fun t => decide (t.assignee = .str sender) || decide (t.creator = sender)),
    rfl, ?_, ?_, ?_, List.filter_sublist _, ?_⟩
  · intro t
    simp only [List.mem_filter, Bool.or_eq_true, decide_eq_true_eq]
    tauto
  · have hsub : (s.tasks.filter (fun t => decide (t.assignee = .str sender)
        || decide (t.creator = sender))).map (fun t => t.id)
        |>.Sublist (s.tasks.map (fun t => t.id)) := (List.filter_sublist _).map _
    have hnd : ((s.tasks.filter (fun t => decide (t.assignee = .str sender)
        || decide (t.creator = sender))).map (fun t => t.id)).Nodup :=
      (inv_nodup s hinv).sublist hsub
    exact List.Nodup.of_map _ hnd
  · exact hsorted.sublist ((List.filter_sublist _).map _)
  · intro hnone
    rw [List.filter_eq_nil_iff]
    intro t ht
    have h := hnone t ht
    simp [h.1, h.2]

/-- C12 (witness): after `A` has created task 1 for `B`, the query of `B` lists task 1. -/
theorem C12_my_tasks_witness :
    ∃ ts : List Task,
      handle_inspect (run State.init [createT1 1000]) "B" "my_tasks" = some (.tasksJson ts) ∧
      (∀ t, t ∈ ts ↔ t ∈ (run State.init [createT1 1000]).tasks ∧
        (t.creator = "B" ∨ t.assignee = .str "B")) :=
  have ⟨ts, h1, h2, _⟩ := C12_my_tasks (run State.init [createT1 1000])
    ⟨[createT1 1000], rfl⟩ "B"
  ⟨ts, h1, h2⟩

/-! ## Further evaluations at concrete requests -/

/-- C13 (failing input): `A` creates task 1 for `B`, who has sent no advance request, and
completes it. The state is reachable, and the balance stored for `B` is `NaN`: it is no
integer, and so no non-negative multiple of the reward. -/
theorem C13_stored_balance_not_an_integer :
    Reachable (run State.init [createT1 1000, updateT1 "A" "Completed"]) ∧
    ledgerGet (run State.init [createT1 1000, updateT1 "A" "Completed"]).userBalances
      (keyOfString "B") = .own .nan ∧
    ∀ n : Int, (run State.init [createT1 1000, updateT1 "A" "Completed"]).userBalances
      (keyOfString "B") ≠ some (.num n) := by
  refine ⟨⟨_, rfl⟩, by decide, ?_⟩
  intro n
  have h : (run State.init [createT1 1000, updateT1 "A" "Completed"]).userBalances
      (keyOfString "B") = some .nan := by decide
  rw [h]
  simp

/-- A rejection that follows a write. The creator `A` of task 1 reassigns it to an assignee
given as the object with the one entry `toString: null`: the checks of lines 78-86 pass,
line 87 stores the new assignee, and the template literal of line 88 throws a `TypeError`
when it converts that object to a string. The request is rejected with the message of that
error, which is none of the messages of the checks, and the Task Store is not what it was. -/
theorem reassign_rejected_after_write :
    (handle_advance (run State.init [createT1 1000]) "A" 2000
      (.fields { action := .str "reassign", taskId := .num 1,
                 assignee := .other "\x7b\"toString\":null\x7d" none true })).status
      = "reject" ∧
    (handle_advance (run State.init [createT1 1000]) "A" 2000
      (.fields { action := .str "reassign", taskId := .num 1,
                 assignee := .other "\x7b\"toString\":null\x7d" none true })).message
      = conversionError ∧
    (handle_advance (run State.init [createT1 1000]) "A" 2000
      (.fields { action := .str "reassign", taskId := .num 1,
                 assignee := .other "\x7b\"toString\":null\x7d" none true })).state.tasks
      = [{ id := 1, title := .str "T1", description := .str "D1", creator := "A",
           assignee := .other "\x7b\"toString\":null\x7d" none true,
           status := .str "Open", createdAt := 1000 }] ∧
    (handle_advance (run State.init [createT1 1000]) "A" 2000
      (.fields { action := .str "reassign", taskId := .num 1,
                 assignee := .other "\x7b\"toString\":null\x7d" none true })).state.tasks
      ≠ (run State.init [createT1 1000]).tasks := by
  decide

/-- A rejected update that follows a write. `A` creates task 1 for an assignee given as the
object with the one entry `toString: null` and completes it: line 67 stores the new status,
and line 70 throws a `TypeError` when it converts the assignee to a property key. The
request is rejected, and the stored status is `Completed`. -/
theorem update_rejected_after_write :
    (handle_advance
      (handle_advance State.init "A" 1000
        (.fields { action := .str "create", title := .str "T1", description := .str "D1",
                   assignee := .other "\x7b\"toString\":null\x7d" none true })).state
      "A" 2000
      (.fields { action := .str "update", taskId := .num 1,
                 status := .str "Completed" })).status = "reject" ∧
    (handle_advance
      (handle_advance State.init "A" 1000
        (.fields { action := .str "create", title := .str "T1", description := .str "D1",
                   assignee := .other "\x7b\"toString\":null\x7d" none true })).state
      "A" 2000
      (.fields { action := .str "update", taskId := .num 1,
                 status := .str "Completed" })).state.tasks
      = [{ id := 1, title := .str "T1", description := .str "D1", creator := "A",
           assignee := .other "\x7b\"toString\":null\x7d" none true,
           status := .str "Completed", createdAt := 1000 }] := by
  decide

/-- For the payload `task x/constructor` line 134 reads the member `constructor` that the
`tasks` object inherits, finds it truthy and serialises it instead of answering
`Task does not exist.`; `JSON.stringify` of a function is undefined and `str2hex` throws on
it. This is so in every state, although no stored task has such an id; for
`task x/__proto__` the response is the text of an empty object. -/
theorem inspect_task_inherited_member (s : State) (sender : String) :
    getTask s.tasks (taskIdOf "x/constructor".data) = .inherited "constructor" ∧
    handle_inspect s sender "task x/constructor" ≠ some (.text "Task does not exist.") ∧
    handle_inspect s sender "task x/constructor" = none ∧
    handle_inspect s sender "task x/__proto__" = some (.text "\x7b\x7d") := by
  refine ⟨rfl, ?_, rfl, rfl⟩
  have h : handle_inspect s sender "task x/constructor" = none := rfl
  rw [h]
  simp

/-- C18 (counterexample): with task 1 alone stored, the payload `task x/1/2` is answered
with the record of task 1, although the text after the first slash of its token, `1/2`, is
the id of no stored task (and neither is `2`, the text after the last slash): line 133 keeps
only what stands between the first and the second slash. -/
theorem C18_text_after_slash_is_cut :
    handle_inspect (run State.init [createT1 1000]) "A" "task x/1/2"
      = some (.taskJson { id := 1, title := .str "T1", description := .str "D1",
                          creator := "A", assignee := .str "B", status := .str "Open",
                          createdAt := 1000 }) ∧
    handle_inspect (run State.init [createT1 1000]) "A" "task x/1/2"
      ≠ some (.text "Task does not exist.") ∧
    getTask (run State.init [createT1 1000]).tasks (keyOfString "1/2") = .undefined ∧
    getTask (run State.init [createT1 1000]).tasks (keyOfString "2") = .undefined := by
  decide

/-- C19 (failing input): `A` creates task 1 for `B` and completes it, moves it back to
`Open`, and then `B` completes it. Both completions are accepted and each notice says that
`B` earned 10 tokens, but the first reward was added to `undefined`: the balance query
answers 10 for `B`, not 20. -/
theorem C19_balance_misses_a_reward :
    (advance (run State.init [createT1 1000]) (updateT1 "A" "Completed")).message
      = "Task 1 marked as Completed. B earned 10 tokens." ∧
    (advance (run State.init [createT1 1000, updateT1 "A" "Completed", updateT1 "A" "Open"])
      (updateT1 "B" "Completed")).message
      = "Task 1 marked as Completed. B earned 10 tokens." ∧
    handle_inspect (run State.init [createT1 1000, updateT1 "A" "Completed",
        updateT1 "A" "Open", updateT1 "B" "Completed"]) "B" "balance"
      = some (.text "\x7b\"balance\":10\x7d") := by
  decide

/-! ## What one request does to the Task Store -/

theorem handleUpdate_tasks (s1 : State) (sender : String) (r : ActionRequest)
    (hnd : (s1.tasks.map (fun t => t.id)).Nodup) :
    ∃ ts, (handleUpdate s1 sender r).state.tasks = ts ∧
      (ts = s1.tasks ∨ ∃ (n : Nat) (st : JVal), st ∈ validStatuses ∧
        ts = s1.tasks.map (fun u => if u.id = n then { u with status := st } else u)) := by
  have hwrite : ∀ t : Task, r.status ∈ validStatuses → ∃ (n : Nat) (st : JVal),
      st ∈ validStatuses ∧
      modifyTask t.id (fun u => { u with status := r.status }) s1.tasks
        = s1.tasks.map (fun u => if u.id = n then { u with status := st } else u) :=
    fun t hvalid => ⟨t.id, r.status, hvalid, modifyTask_eq_map _ _ _ hnd⟩
  unfold handleUpdate sendNotice
  cases hg : getTask s1.tasks r.taskId.toKey <;> simp only [hg] <;> split_ifs <;> first
    | exact ⟨_, rfl, Or.inl rfl⟩
    | exact ⟨_, rfl, Or.inr (hwrite _ ‹r.status ∈ validStatuses›)⟩

theorem handleReassign_tasks (s1 : State) (sender : String) (r : ActionRequest)
    (hnd : (s1.tasks.map (fun t => t.id)).Nodup) :
    ∃ ts, (handleReassign s1 sender r).state.tasks = ts ∧
      (ts = s1.tasks ∨ ∃ (n : Nat) (a : JVal),
        ts = s1.tasks.map (fun u => if u.id = n then { u with assignee := a } else u)) := by
  have hwrite : ∀ t : Task, ∃ (n : Nat) (a : JVal),
      modifyTask t.id (fun u => { u with assignee := r.assignee }) s1.tasks
        = s1.tasks.map (fun u => if u.id = n then { u with assignee := a } else u) :=
    fun t => ⟨t.id, r.assignee, modifyTask_eq_map _ _ _ hnd⟩
  unfold handleReassign sendNotice
  cases hg : getTask s1.tasks r.taskId.toKey <;> simp only [hg] <;> split_ifs <;> first
    | exact ⟨_, rfl, Or.inl rfl⟩
    | exact ⟨_, rfl, Or.inr (hwrite _)⟩

/-- The four ways an advance request can leave the Task Store of a state satisfying the
invariant: untouched; one task appended by an accepted create; the status of the task with
one id replaced by a valid status, by an update; the assignee of the task with one id
replaced, by a reassign. (An update or reassign that writes can still end in `reject`, when
building or encoding its notice throws.) -/
theorem advance_shape (s : State) (h : Inv s) (sender : String) (now : Nat)
    (payload : Payload) :
    (handle_advance s sender now payload).state.tasks = s.tasks ∨
    (payload.action = .str "create" ∧
      (handle_advance s sender now payload).status = "accept" ∧
      ∃ t : Task, (handle_advance s sender now payload).state.tasks = s.tasks ++ [t] ∧
        t.id = s.taskIdCounter + 1 ∧ t.status = .str "Open") ∨
    (payload.action = .str "update" ∧
      ∃ (n : Nat) (st : JVal), st ∈ validStatuses ∧
        (handle_advance s sender now payload).state.tasks
          = s.tasks.map (fun u => if u.id = n then { u with status := st } else u)) ∨
    (payload.action = .str "reassign" ∧
      ∃ (n : Nat) (a : JVal),
        (handle_advance s sender now payload).state.tasks
          = s.tasks.map (fun u => if u.id = n then { u with assignee := a } else u)) := by
  cases payload with
  | invalid m => exact Or.inl rfl
  | unreportable m => exact Or.inl rfl
  | fields r =>
    have hnd := inv_nodup s h
    unfold handle_advance
    simp only [Payload.action]
    split_ifs with h1 h2 h3
    · unfold handleCreate
      split_ifs
      · exact Or.inl rfl
      · have hfresh := setTask_fresh (s.taskIdCounter + 1)
          { id := s.taskIdCounter + 1, title := r.title, description := r.description,
            creator := sender, assignee := r.assignee, status := .str "Open",
            createdAt := now }
          s.tasks (fun u hu => (id_bounds _ _ h.ids u hu).2)
        exact Or.inr (Or.inl ⟨h1, rfl, _, hfresh, rfl, rfl⟩)
    · obtain ⟨ts, hts, hcase⟩ := handleUpdate_tasks
        { s with userBalances := initBalance s.userBalances sender } sender r hnd
      rw [hts]
      rcases hcase with rfl | ⟨n, st, hvalid, rfl⟩
      · exact Or.inl rfl
      · exact Or.inr (Or.inr (Or.inl ⟨h2, n, st, hvalid, rfl⟩))
    · obtain ⟨ts, hts, hcase⟩ := handleReassign_tasks
        { s with userBalances := initBalance s.userBalances sender } sender r hnd
      rw [hts]
      rcases hcase with rfl | ⟨n, a, rfl⟩
      · exact Or.inl rfl
      · exact Or.inr (Or.inr (Or.inr ⟨h3, n, a, rfl⟩))
    · exact Or.inl rfl

/-! ## Status validity -/

theorem status_step (s : State) (h : Inv s)
    (hst : ∀ t ∈ s.tasks, t.status ∈ validStatuses) (sender : String) (now : Nat)
    (payload : Payload) :
    ∀ t ∈ (handle_advance s sender now payload).state.tasks, t.status ∈ validStatuses := by
  intro t ht
  rcases advance_shape s h sender now payload with
    hsame | ⟨_, _, u, happ, _, hopen⟩ | ⟨_, n, st, hvalid, hmap⟩ | ⟨_, n, a, hmap⟩
  · rw [hsame] at ht
    exact hst t ht
  · rw [happ] at ht
    rcases List.mem_append.1 ht with ht | ht
    · exact hst t ht
    · rw [List.mem_singleton] at ht
      subst ht
      rw [hopen]
      decide
  · rw [hmap] at ht
    obtain ⟨u, hu, rfl⟩ := List.mem_map.1 ht
    split_ifs
    · exact hvalid
    · exact hst u hu
  · rw [hmap] at ht
    obtain ⟨u, hu, rfl⟩ := List.mem_map.1 ht
    split_ifs
    · exact hst u hu
    · exact hst u hu

theorem run_status (steps : List Step) (s : State) (h : Inv s)
    (hst : ∀ t ∈ s.tasks, t.status ∈ validStatuses) :
    ∀ t ∈ (run s steps).tasks, t.status ∈ validStatuses := by
  induction steps generalizing s with
  | nil => exact hst
  | cons q rest ih =>
    exact ih _ (handle_advance_inv s q.sender q.now q.payload h)
      (status_step s h hst q.sender q.now q.payload)

/-- C15: in every reachable state the status of every stored task is `Open`, `In Progress`
or `Completed`; and an update request that names a stored task, comes from its creator or
its assignee and carries any other non-empty status is rejected with the invalid-status
error, the Task Store being left as it was. -/
theorem C15_status_validity (s : State) (hs : Reachable s) :
    (∀ t ∈ s.tasks, t.status = .str "Open" ∨ t.status = .str "In Progress" ∨
      t.status = .str "Completed") ∧
    (∀ t ∈ s.tasks, ∀ (sender : String) (now : Nat) (r : ActionRequest),
      r.action = .str "update" → r.taskId = .num t.id →
      (sender = t.creator ∨ JVal.str sender = t.assignee) →
      r.status.truthy = true → r.status ≠ .str "Open" → r.status ≠ .str "In Progress" →
      r.status ≠ .str "Completed" →
      (handle_advance s sender now (.fields r)).status = "reject" ∧
      (handle_advance s sender now (.fields r)).message
        = "Invalid status. Use 'Open', 'In Progress', or 'Completed'." ∧
      (handle_advance s sender now (.fields r)).state.tasks = s.tasks) := by
  constructor
  · obtain ⟨steps, rfl⟩ := hs
    intro t ht
    have h := run_status steps State.init inv_init (fun u hu => by cases hu) t ht
    simpa [validStatuses] using h
  · intro t ht sender now r ha hid hauth htruthy h1 h2 h3
    obtain ⟨hidtruthy, hget⟩ := getTask_stored s (reachable_inv s hs) t ht
    have hnot : ¬ (JVal.str sender ≠ t.assignee ∧ sender ≠ t.creator) := by
      rintro ⟨h4, h5⟩
      rcases hauth with hauth | hauth
      · exact h5 hauth
      · exact h4 hauth
    have hinvalid : r.status ∉ validStatuses := by
      simp [validStatuses, h1, h2, h3]
    have hconv : (JVal.num (t.id : Int)).converts = true := rfl
    rw [handle_advance_update s sender now r ha]
    unfold handleUpdate sendNotice
    simp only [hid, hidtruthy, htruthy, hget, hconv]
    simp [hnot, hinvalid]

/-- C15 (witness): `B`, the assignee of task 1, asks for the status `Done`. -/
theorem C15_status_validity_witness :
    (handle_advance (run State.init [createT1 1000]) "B" 2000
      (.fields { action := .str "update", taskId := .num 1, status := .str "Done" })).message
      = "Invalid status. Use 'Open', 'In Progress', or 'Completed'." :=
  ((C15_status_validity (run State.init [createT1 1000]) ⟨[createT1 1000], rfl⟩).2
      { id := 1, title := .str "T1", description := .str "D1", creator := "A",
        assignee := .str "B", status := .str "Open", createdAt := 1000 }
      (by decide) "B" 2000
      { action := .str "update", taskId := .num 1, status := .str "Done" } rfl rfl
      (Or.inr rfl) (by decide) (by decide) (by decide) (by decide)).2.1

/-! ## Permanence of tasks -/

theorem getTask_of_mem (s : State) (h : Inv s) (t : Task) (ht : t ∈ s.tasks) :
    getTask s.tasks (.idx t.id) = .own t := by
  simp [getTask, find_stored s.tasks (inv_nodup s h) t ht]

/-- C16: in every reachable state, whatever advance request is processed next, accepted or
rejected, a stored task `t` is still stored afterwards under its id, with the same id, title,
description, creator and `createdAt`; its status can differ only after an update request and
its assignee only after a reassign request, and the Task Store never gets shorter. -/
theorem C16_task_permanence (s : State) (hs : Reachable s) (t : Task) (ht : t ∈ s.tasks)
    (sender : String) (now : Nat) (payload : Payload) :
    ∃ u : Task, u ∈ (handle_advance s sender now payload).state.tasks ∧
      getTask (handle_advance s sender now payload).state.tasks (.idx t.id) = .own u ∧
      u.id = t.id ∧ u.title = t.title ∧ u.description = t.description ∧
      u.creator = t.creator ∧ u.createdAt = t.createdAt ∧
      (u.status ≠ t.status → payload.action = .str "update") ∧
      (u.assignee ≠ t.assignee → payload.action = .str "reassign") ∧
      s.tasks.length ≤ (handle_advance s sender now payload).state.tasks.length := by
  have hinv := reachable_inv s hs
  have hinv1 := handle_advance_inv s sender now payload hinv
  have hread : ∀ u : Task, u ∈ (handle_advance s sender now payload).state.tasks →
      u.id = t.id →
      getTask (handle_advance s sender now payload).state.tasks (.idx t.id) = .own u := by
    intro u hu hid
    rw [← hid]
    exact getTask_of_mem _ hinv1 u hu
  rcases advance_shape s hinv sender now payload with
    hsame | ⟨_, _, v, happ, _, _⟩ | ⟨hact, n, st, _, hmap⟩ | ⟨hact, n, a, hmap⟩
  · have hu : t ∈ (handle_advance s sender now payload).state.tasks := by
      rw [hsame]
      exact ht
    refine ⟨t, hu, hread t hu rfl, rfl, rfl, rfl, rfl, rfl, ?_, ?_, ?_⟩
    · exact fun hne => absurd rfl hne
    · exact fun hne => absurd rfl hne
    · rw [hsame]
  · have hu : t ∈ (handle_advance s sender now payload).state.tasks := by
      rw [happ]
      exact List.mem_append_left _ ht
    refine ⟨t, hu, hread t hu rfl, rfl, rfl, rfl, rfl, rfl, ?_, ?_, ?_⟩
    · exact fun hne => absurd rfl hne
    · exact fun hne => absurd rfl hne
    · rw [happ]
      simp
  · have hu : (if t.id = n then { t with status := st } else t)
        ∈ (handle_advance s sender now payload).state.tasks := by
      rw [hmap]
      exact List.mem_map.2 ⟨t, ht, rfl⟩
    have hid : (if t.id = n then { t with status := st } else t).id = t.id := by
      split_ifs <;> rfl
    refine ⟨_, hu, hread _ hu hid, hid, ?_, ?_, ?_, ?_, fun _ => hact, ?_, ?_⟩
    · split_ifs <;> rfl
    · split_ifs <;> rfl
    · split_ifs <;> rfl
    · split_ifs <;> rfl
    · intro hne
      exfalso
      apply hne
      split_ifs <;> rfl
    · rw [hmap, List.length_map]
  · have hu : (if t.id = n then { t with assignee := a } else t)
        ∈ (handle_advance s sender now payload).state.tasks := by
      rw [hmap]
      exact List.mem_map.2 ⟨t, ht, rfl⟩
    have hid : (if t.id = n then { t with assignee := a } else t).id = t.id := by
      split_ifs <;> rfl
    refine ⟨_, hu, hread _ hu hid, hid, ?_, ?_, ?_, ?_, ?_, fun _ => hact, ?_⟩
    · split_ifs <;> rfl
    · split_ifs <;> rfl
    · split_ifs <;> rfl
    · split_ifs <;> rfl
    · intro hne
      exfalso
      apply hne
      split_ifs <;> rfl
    · rw [hmap, List.length_map]

/-- C16 (witness): task 1 after its creator `A` has handed it to `C`. -/
theorem C16_task_permanence_witness :
    ∃ u : Task, u ∈ (handle_advance (run State.init [createT1 1000]) "A" 2000
        (.fields { action := .str "reassign", taskId := .num 1,
                   assignee := .str "C" })).state.tasks ∧
      u.id = 1 ∧ u.title = .str "T1" ∧ u.description = .str "D1" ∧ u.creator = "A" ∧
      u.createdAt = 1000 :=
  have ⟨u, h1, _, h3, h4, h5, h6, h7, _⟩ :=
    C16_task_permanence (run State.init [createT1 1000]) ⟨[createT1 1000], rfl⟩
      { id := 1, title := .str "T1", description := .str "D1", creator := "A",
        assignee := .str "B", status := .str "Open", createdAt := 1000 }
      (by decide) "A" 2000
      (.fields { action := .str "reassign", taskId := .num 1, assignee := .str "C" })
  ⟨u, h1, h3, h4, h5, h6, h7⟩

/-! ## Create requests -/

theorem falsy_iff_missingOrEmpty (v : JVal) (h : v.isTextOrAbsent) :
    v.truthy = false ↔ v.missingOrEmpty := by
  rcases h with rfl | rfl | ⟨x, rfl⟩
  · simp [JVal.truthy, JVal.missingOrEmpty]
  · simp [JVal.truthy, JVal.missingOrEmpty]
  · simp [JVal.truthy, JVal.missingOrEmpty]

/-- C14 (counterexample): a create request whose title is the number `0`, with a description
and an assignee, is rejected with the message of line 37, although none of the three fields
is missing or empty: line 36 tests truthiness, and `0` is falsy. -/
theorem C14_zero_title_rejected :
    (handle_advance State.init "A" 1000
      (.fields { action := .str "create", title := .num 0, description := .str "D1",
                 assignee := .str "B" })).status = "reject" ∧
    (handle_advance State.init "A" 1000
      (.fields { action := .str "create", title := .num 0, description := .str "D1",
                 assignee := .str "B" })).message
      = "Title, description, and assignee are required for task creation." ∧
    ¬ ((JVal.num 0).missingOrEmpty ∨ (JVal.str "D1").missingOrEmpty
        ∨ (JVal.str "B").missingOrEmpty) := by
  refine ⟨by decide, by decide, ?_⟩
  simp [JVal.missingOrEmpty]

/-- C14 (amended): in every reachable state, a create request is rejected with the message
of line 37 exactly if one of `title`, `description`, `assignee` is falsy (absent, `null`,
the empty string, `false` or `0`); when the three are strings or absent, that is exactly if
one of them is missing or empty. Otherwise the request is accepted and appends exactly one
task to the Task Store, with the next id, status `Open`, the sender as creator, the clock
reading as `createdAt` and the supplied title, description and assignee, every task stored
before being left as it was and the balance query answering the same for every identity. -/
theorem C14_create (s : State) (hs : Reachable s) (sender : String) (now : Nat)
    (r : ActionRequest) (ha : r.action = .str "create") :
    (((handle_advance s sender now (.fields r)).status = "reject" ∧
       (handle_advance s sender now (.fields r)).message
        = "Title, description, and assignee are required for task creation.") ↔
      (r.title.truthy = false ∨ r.description.truthy = false ∨ r.assignee.truthy = false)) ∧
    (r.title.isTextOrAbsent → r.description.isTextOrAbsent → r.assignee.isTextOrAbsent →
      (((handle_advance s sender now (.fields r)).status = "reject" ∧
         (handle_advance s sender now (.fields r)).message
          = "Title, description, and assignee are required for task creation.") ↔
        (r.title.missingOrEmpty ∨ r.description.missingOrEmpty
          ∨ r.assignee.missingOrEmpty))) ∧
    (¬ (r.title.truthy = false ∨ r.description.truthy = false ∨ r.assignee.truthy = false) →
      (handle_advance s sender now (.fields r)).status = "accept" ∧
      (handle_advance s sender now (.fields r)).thrown = false ∧
      (handle_advance s sender now (.fields r)).state.taskIdCounter = s.taskIdCounter + 1 ∧
      (handle_advance s sender now (.fields r)).state.tasks
        = s.tasks ++ [{ id := s.taskIdCounter + 1, title := r.title,
                        description := r.description, creator := sender,
                        assignee := r.assignee, status := .str "Open", createdAt := now }] ∧
      (∀ who, balanceReply (handle_advance s sender now (.fields r)).state.userBalances who
        = balanceReply s.userBalances who)) := by
  have hinv := reachable_inv s hs
  have hfresh := setTask_fresh (s.taskIdCounter + 1)
    { id := s.taskIdCounter + 1, title := r.title, description := r.description,
      creator := sender, assignee := r.assignee, status := .str "Open", createdAt := now }
    s.tasks (fun u hu => (id_bounds _ _ hinv.ids u hu).2)
  have hmain : (((handle_advance s sender now (.fields r)).status = "reject" ∧
       (handle_advance s sender now (.fields r)).message
        = "Title, description, and assignee are required for task creation.") ↔
      (r.title.truthy = false ∨ r.description.truthy = false ∨ r.assignee.truthy = false)) ∧
    (¬ (r.title.truthy = false ∨ r.description.truthy = false ∨ r.assignee.truthy = false) →
      (handle_advance s sender now (.fields r)).status = "accept" ∧
      (handle_advance s sender now (.fields r)).thrown = false ∧
      (handle_advance s sender now (.fields r)).state.taskIdCounter = s.taskIdCounter + 1 ∧
      (handle_advance s sender now (.fields r)).state.tasks
        = s.tasks ++ [{ id := s.taskIdCounter + 1, title := r.title,
                        description := r.description, creator := sender,
                        assignee := r.assignee, status := .str "Open", createdAt := now }] ∧
      (∀ who, balanceReply (handle_advance s sender now (.fields r)).state.userBalances who
        = balanceReply s.userBalances who)) := by
    rw [handle_advance_create s sender now r ha]
    unfold handleCreate
    by_cases hmiss : r.title.truthy = false ∨ r.description.truthy = false
        ∨ r.assignee.truthy = false
    · have hcond : (!r.title.truthy || !r.description.truthy || !r.assignee.truthy) = true := by
        rcases hmiss with h | h | h
        · simp [h]
        · simp [h]
        · simp [h]
      rw [if_pos hcond]
      exact ⟨⟨fun _ => hmiss, fun _ => ⟨rfl, rfl⟩⟩, fun hnot => absurd hmiss hnot⟩
    · have ht1 : r.title.truthy = true := by
        by_contra hc
        exact hmiss (Or.inl (by simpa using hc))
      have ht2 : r.description.truthy = true := by
        by_contra hc
        exact hmiss (Or.inr (Or.inl (by simpa using hc)))
      have ht3 : r.assignee.truthy = true := by
        by_contra hc
        exact hmiss (Or.inr (Or.inr (by simpa using hc)))
      have hcond : ¬ (!r.title.truthy || !r.description.truthy || !r.assignee.truthy) = true := by
        simp [ht1, ht2, ht3]
      rw [if_neg hcond]
      refine ⟨⟨fun h => ?_, fun h => absurd h hmiss⟩, fun _ => ⟨rfl, rfl, rfl, hfresh, ?_⟩⟩
      · have hrej := h.1
        simp at hrej
      · intro who
        exact balanceReply_initBalance _ _ _
  refine ⟨hmain.1, fun h1 h2 h3 => ?_, hmain.2⟩
  rw [hmain.1, falsy_iff_missingOrEmpty _ h1, falsy_iff_missingOrEmpty _ h2,
    falsy_iff_missingOrEmpty _ h3]

/-- C14 (witness): the create request of scenario 1, sent in the initial state. -/
theorem C14_create_witness :
    (handle_advance State.init "A" 1000
      (.fields { action := .str "create", title := .str "T1", description := .str "D1",
                 assignee := .str "B" })).state.tasks
      = [{ id := 1, title := .str "T1", description := .str "D1", creator := "A",
           assignee := .str "B", status := .str "Open", createdAt := 1000 }] :=
  ((C14_create State.init ⟨[], rfl⟩ "A" 1000
      { action := .str "create", title := .str "T1", description := .str "D1",
        assignee := .str "B" } rfl).2.2
    (by decide)).2.2.2.1

/-! ## Inspect requests leave the stores alone -/

/-- The program of `handle_inspect` ends with the stores it started from, and with the body
that `handle_inspect` computes from them. -/
theorem inspectProgram_run (s : State) (sender payload : String) :
    (inspectProgram sender payload).run s = (handle_inspect s sender payload, s) := by
  unfold inspectProgram handle_inspect
  cases splitOn ' ' payload.data with
  | nil => rfl
  | cons route params =>
    simp only
    split_ifs
    · rfl
    · unfold inspectTask
      cases params with
      | nil => rfl
      | cons p ps =>
        simp only [StateT.run, bind, StateT.bind, get, getThe, MonadStateOf.get, StateT.get,
          pure, StateT.pure]
        cases hg : getTask s.tasks (taskIdOf p) with
        | undefined => rfl
        | own t => rfl
        | inherited m => rfl
    · rfl
    · rfl
    · rfl

theorem serve_inspect (s : State) (sender payload : String) :
    serve s (.inspect sender payload) = s := by
  show ((inspectProgram sender payload).run s).2 = s
  rw [inspectProgram_run]

theorem serveAll_eq_run (reqs : List Request) (s : State) :
    serveAll s reqs = run s (advanceSteps reqs) := by
  induction reqs generalizing s with
  | nil => rfl
  | cons q rest ih =>
    cases q with
    | advance st => exact ih _
    | inspect sender payload =>
      show serveAll (serve s (.inspect sender payload)) rest = run s (advanceSteps rest)
      rw [serve_inspect]
      exact ih s

theorem serveAll_inspects (n : Nat) (s : State) (sender payload : String) :
    serveAll s (List.replicate n (.inspect sender payload)) = s := by
  induction n with
  | zero => rfl
  | succ k ih =>
    show serveAll (serve s (.inspect sender payload))
      (List.replicate k (.inspect sender payload)) = s
    rw [serve_inspect]
    exact ih

/-- C17: run as a program over the stores, `handle_inspect` ends, for every state, sender
and payload and whether it reports or throws, with the Task Store, the id counter and the
Ledger Store it started from, and with the body computed from them; hence a query repeated
any number of times gets the same response as the first time, and a sequence of requests of
both kinds ends in the state that its advance requests alone lead to. -/
theorem C17_inspect_read_only (s : State) (sender payload : String) :
    ((inspectProgram sender payload).run s).2.tasks = s.tasks ∧
    ((inspectProgram sender payload).run s).2.taskIdCounter = s.taskIdCounter ∧
    ((inspectProgram sender payload).run s).2.userBalances = s.userBalances ∧
    ((inspectProgram sender payload).run s).1 = handle_inspect s sender payload ∧
    (∀ n : Nat,
      ((inspectProgram sender payload).run
          (serveAll s (List.replicate n (.inspect sender payload)))).1
        = handle_inspect s sender payload) ∧
    (∀ reqs : List Request, serveAll s reqs = run s (advanceSteps reqs)) := by
  refine ⟨?_, ?_, ?_, ?_, fun n => ?_, fun reqs => serveAll_eq_run reqs s⟩
  · rw [inspectProgram_run]
  · rw [inspectProgram_run]
  · rw [inspectProgram_run]
  · rw [inspectProgram_run]
  · rw [serveAll_inspects, inspectProgram_run]

/-! ## The `task` query at a numeral -/

theorem digitChar_spec (k : Nat) (hk : k < 10) :
    (Nat.digitChar k).isDigit = true ∧ (Nat.digitChar k).toNat - 48 = k := by
  interval_cases k <;> decide

theorem parseDigits_toDigitsCore (fuel n : Nat) (ds : List Char) (h : n < fuel) :
    parseDigits (Nat.toDigitsCore 10 fuel n ds) 0 = parseDigits ds n := by
  induction fuel generalizing n ds with
  | zero => omega
  | succ f ih =>
    have hd := digitChar_spec (n % 10) (Nat.mod_lt _ (by decide))
    unfold Nat.toDigitsCore
    simp only
    split_ifs with h0
    · have hn : n % 10 = n := by omega
      simp only [parseDigits]
      rw [hn] at hd ⊢
      simp [hd.1, hd.2]
    · rw [ih (n / 10) _ (by omega)]
      simp only [parseDigits, hd.1, if_true, hd.2]
      congr 1
      omega

theorem parseDigits_repr (n : Nat) : parseDigits (Nat.repr n).data 0 = some n := by
  have h := parseDigits_toDigitsCore (n + 1) n [] (by omega)
  simpa [parseDigits] using h

/-- The decimal numeral of `n` is the key `idx n`. -/
theorem keyOfString_repr (n : Nat) : keyOfString (Nat.repr n) = .idx n := by
  have h := parseDigits_repr n
  unfold keyOfString
  cases hdata : (Nat.repr n).data with
  | nil =>
    rw [hdata] at h
    simp only [parseDigits, Option.some.injEq] at h
    subst h
    exact absurd hdata (by decide)
  | cons c cs =>
    simp only
    rw [hdata] at h
    rw [h]
    simp

theorem parseDigits_isDigit (ds : List Char) (acc n : Nat) (h : parseDigits ds acc = some n) :
    ∀ c ∈ ds, c.isDigit = true := by
  induction ds generalizing acc with
  | nil => intro c hc; cases hc
  | cons d ds ih =>
    unfold parseDigits at h
    split_ifs at h with hd
    intro c hc
    rcases List.mem_cons.1 hc with rfl | hc
    · exact hd
    · exact ih _ h c hc

theorem splitOn_no_sep (sep : Char) (ds : List Char) (h : sep ∉ ds) :
    splitOn sep ds = [ds] := by
  induction ds with
  | nil => rfl
  | cons d ds ih =>
    have hd : d ≠ sep := fun e => h (e ▸ List.mem_cons_self _ _)
    have hrest : sep ∉ ds := fun e => h (List.mem_cons_of_mem _ e)
    simp [splitOn, hd, ih hrest]

theorem splitOn_before_sep (sep : Char) (p ds : List Char) (h : sep ∉ p) :
    splitOn sep (p ++ sep :: ds) = p :: splitOn sep ds := by
  induction p with
  | nil => simp [splitOn]
  | cons d p ih =>
    have hd : d ≠ sep := fun e => h (e ▸ List.mem_cons_self _ _)
    have hrest : sep ∉ p := fun e => h (List.mem_cons_of_mem _ e)
    simp [splitOn, hd, ih hrest]

/-- In a token `P/N` or `P/N/...` with no slash in `P` and none in `N`, line 133 reads
`N`. -/
theorem idTextOf_slash (p idText more : List Char) (hp : '/' ∉ p) (hid : '/' ∉ idText)
    (hmore : more = [] ∨ ∃ cs, more = '/' :: cs) :
    idTextOf (p ++ '/' :: (idText ++ more)) = some idText := by
  unfold idTextOf
  rw [splitOn_before_sep '/' p _ hp]
  rcases hmore with rfl | ⟨cs, rfl⟩
  · rw [List.append_nil, splitOn_no_sep '/' _ hid]
    rfl
  · rw [splitOn_before_sep '/' _ cs hid]
    rfl

/-- In a token without a slash line 133 reads `undefined`. -/
theorem idTextOf_no_slash (tok : List Char) (h : '/' ∉ tok) : idTextOf tok = none := by
  unfold idTextOf
  rw [splitOn_no_sep '/' tok h]
  rfl

theorem repr_no_slash (n : Nat) : '/' ∉ (Nat.repr n).data := by
  intro hmem
  have h := parseDigits_isDigit _ _ _ (parseDigits_repr n) '/' hmem
  exact absurd h (by decide)

/-- A string whose key is `idx n` is the decimal numeral of `n`, and a string whose key is a
name is that name. -/
theorem keyOfString_inv (str : String) :
    (∀ n, keyOfString str = .idx n → Nat.repr n = str) ∧
    (∀ m, keyOfString str = .name m → m = str) := by
  have hname : (∀ n, Key.name str = .idx n → Nat.repr n = str) ∧
      (∀ m, Key.name str = .name m → m = str) := by
    constructor
    · intro n h
      cases h
    · intro m h
      cases h
      rfl
  have key : keyOfString str = .name str ∨
      ∃ n, keyOfString str = .idx n ∧ Nat.repr n = str := by
    unfold keyOfString
    cases hd : str.data with
    | nil => exact Or.inl rfl
    | cons c cs =>
      simp only []
      cases hp : parseDigits (c :: cs) 0 with
      | none => exact Or.inl rfl
      | some n =>
        simp only []
        by_cases hr : Nat.repr n = str
        · right
          exact ⟨n, by rw [if_pos hr], hr⟩
        · left
          rw [if_neg hr]
  rcases key with h | ⟨n, h, hr⟩
  · rw [h]
    exact hname
  · rw [h]
    constructor
    · intro k hk
      cases hk
      exact hr
    · intro m hm
      cases hm

/-- What the `task` case answers, by the key that line 133 yields. -/
theorem inspect_task_body (s : State) (sender payload : String) (tok : List Char)
    (rest : List (List Char))
    (hsplit : splitOn ' ' payload.data = "task".data :: tok :: rest) :
    handle_inspect s sender payload
      = match getTask s.tasks (taskIdOf tok) with
        | .undefined => some (.text "Task does not exist.")
        | .own t => some (.taskJson t)
        | .inherited m => if m = "__proto__" then some (.text "\x7b\x7d") else none := by
  have hroute : ¬ "task".data = "list".data := by decide
  unfold handle_inspect
  rw [hsplit]
  simp only [hroute, if_false, if_true, inspectTask]

/-- C18 (amended): take an inspect payload whose first token is `task` and which has a
second token, and let `N` be what line 133 reads from that token: the text between its
first and its second slash, up to its end when there is no second slash (so `N` for `P/N`
and for `P/N/...`), and undefined when the token holds no slash. When `N` is the decimal
numeral of the id of a stored task, the response is the serialisation of that task (the
stored ids being distinct, as in every reachable state). When `N` is the numeral of no
stored id and is not the name of a member of `Object.prototype`, which covers an undefined
`N`, the response is `Task does not exist.`. The result depends neither on the prefix `P`,
nor on what follows a second slash or the second token, nor on the sender. -/
theorem C18_task_query (s : State) (sender payload : String) (tok : List Char)
    (rest : List (List Char))
    (hsplit : splitOn ' ' payload.data = "task".data :: tok :: rest) :
    (∀ p idText more : List Char, '/' ∉ p → '/' ∉ idText →
      (more = [] ∨ ∃ cs, more = '/' :: cs) → tok = p ++ '/' :: (idText ++ more) →
      idTextOf tok = some idText) ∧
    ('/' ∉ tok → idTextOf tok = none) ∧
    ((s.tasks.map (fun t => t.id)).Nodup → ∀ t ∈ s.tasks,
      idTextOf tok = some (Nat.repr t.id).data →
      handle_inspect s sender payload = some (.taskJson t)) ∧
    ((∀ t ∈ s.tasks, idTextOf tok ≠ some (Nat.repr t.id).data) →
      (∀ idText, idTextOf tok = some idText →
        String.mk idText ∉ protoFunctions ∧ String.mk idText ≠ "__proto__") →
      handle_inspect s sender payload = some (.text "Task does not exist.")) := by
  have hbody := inspect_task_body s sender payload tok rest hsplit
  refine ⟨?_, idTextOf_no_slash tok, ?_, ?_⟩
  · rintro p idText more hp hid hmore rfl
    exact idTextOf_slash p idText more hp hid hmore
  · intro hnd t ht hread
    have hkey : taskIdOf tok = .idx t.id := by
      unfold taskIdOf
      rw [hread]
      exact keyOfString_repr t.id
    have hfind := find_stored s.tasks hnd t ht
    rw [hbody, hkey]
    simp [getTask, hfind]
  · intro hmiss hproto
    have hslot : getTask s.tasks (taskIdOf tok) = .undefined := by
      unfold taskIdOf
      cases hread : idTextOf tok with
      | none =>
        simp only
        exact getTask_missing _ _ (fun t _ h => by cases h) (by decide)
      | some idText =>
        simp only
        have hinv := keyOfString_inv (String.mk idText)
        apply getTask_missing
        · intro t ht hkey
          have hrepr := hinv.1 t.id hkey
          apply hmiss t ht
          rw [hread, hrepr]
        · cases hk : keyOfString (String.mk idText) with
          | idx n => rfl
          | name m =>
            have hm := hinv.2 m hk
            subst hm
            have hp := hproto idText hread
            simp [isProtoKey, hp.1, hp.2]
    rw [hbody, hslot]

/-- C18 (witness): the query of scenario 6 with the prefix `x`, after task 1 was created. -/
theorem C18_task_query_witness :
    handle_inspect (run State.init [createT1 1000]) "A" "task x/1"
      = some (.taskJson { id := 1, title := .str "T1", description := .str "D1",
                          creator := "A", assignee := .str "B", status := .str "Open",
                          createdAt := 1000 }) :=
  (C18_task_query (run State.init [createT1 1000]) "A" "task x/1" "x/1".data []
      (by decide)).2.2.1 (by decide)
    { id := 1, title := .str "T1", description := .str "D1", creator := "A",
      assignee := .str "B", status := .str "Open", createdAt := 1000 } (by decide)
    (by decide)

end TaskLedger
